import Mathlib

/-!
# Verification of the salon reservation system's pricing and availability engines

Shallow embedding of the coupon engine (`app/crud/coupon_crud.py`), the order
pricing engine (`app/crud/order_crud.py`), the availability engine
(`app/crud/schedule_crud.py`, `app/crud/store_crud.py`) and the scheduling
conflict checker (`app/crud/appointment_crud.py`).

Modelling conventions:
* Money is in integer minor units (`Int`), matching the `Integer` SQL columns.
* Instants (`datetime`) are integers counting minutes; a calendar date is the
  integer `t.fdiv 1440`, the time of day is `t.emod 1440`, and day `0` is
  taken to be a Monday, so Python's `date.weekday()` (Monday = 0 .. Sunday = 6)
  is `day.emod 7`.  All instants are assumed already normalized to UTC+8
  (`ensure_utc8` is the identity on the abstract values compared here).
* `Optional[int]` columns become `Option Int`.  Python's truthiness test
  `if x:` on such a field is `false` both for `None` and for `0`; the helper
  `optIntTruthy` models this exactly.  `datetime` values are always truthy.
* The record store is a `List` of rows; SQLAlchemy's `.first()` is
  `List.find?`, `.all()` is `List.filter`, and an in-place mutation of the
  row returned by `.first()` is `updateFirst` (rewrite the first match).
* The human-readable Chinese error strings of `validate_coupon` are modelled
  as the constructors of `CouponError`; `belowMinimum` carries the minimum
  amount that the real message interpolates (`{min/100:.2f}`), and distinct
  constructors correspond to the pairwise-distinct source strings.
-/

namespace ReservationSystem

/-- Python truthiness of an `Optional[int]`: `None` and `0` are falsy. -/
def optIntTruthy : Option Int → Bool
  | none => false
  | some n => decide (n ≠ 0)

/-- Python truthiness of an `Optional[str]`: `None` and `""` are falsy. -/
def optStrTruthy : Option String → Bool
  | none => false
  | some s => decide (s ≠ "")

/-- The calendar date (day index) of an instant, in minutes-since-epoch. -/
def dtDate (t : Int) : Int := Int.fdiv t 1440

/-- The time of day (minutes past midnight) of an instant. -/
def dtTime (t : Int) : Int := t % 1440

/-- Python's `date.weekday()`: Monday = 0 .. Sunday = 6 (day 0 is a Monday). -/
def nativeWeekday (d : Int) : Int := d % 7

/-- The repository's weekday encoding, 0 = Sunday .. 6 = Saturday:
`adjusted_day = 0 if day_of_week == 6 else day_of_week + 1`. -/
def adjustedDay (w : Int) : Int := if w = 6 then 0 else w + 1

/-- `datetime.combine(date, time)` in the minutes model. -/
def combineDT (d : Int) (tod : Int) : Int := d * 1440 + tod

/-! ## Coupon engine (`app/crud/coupon_crud.py`) -/

/-- A row of the `coupons` table (fields used by the engine). -/
structure Coupon where
  coupon_id : String
  code : String
  name : String
  discount_type : String
  discount_value : Int
  min_order_amount : Option Int
  max_discount_amount : Option Int
  usage_limit : Option Int
  used_count : Int
  is_active : Bool
  start_at : Option Int
  end_at : Option Int
  deriving Repr, DecidableEq

/-- The distinct error messages of `validate_coupon`, one constructor per
source string; `belowMinimum` carries the interpolated minimum amount. -/
inductive CouponError where
  | notFound
  | disabled
  | notYetActive
  | expired
  | usageLimitReached
  | belowMinimum (minAmount : Int)
  deriving Repr, DecidableEq

/-- `CouponValidationResult` (schema `coupon_schemas.CouponValidationResult`). -/
structure CouponValidationResult where
  is_valid : Bool
  coupon_id : Option String
  coupon_name : Option String
  discount_amount : Int
  final_amount : Int
  error_message : Option CouponError
  deriving Repr, DecidableEq

/-- `CouponCRUD.get_coupon_by_code`: first row with the given code. -/
def get_coupon_by_code (db : List Coupon) (code : String) : Option Coupon :=
  db.find? (fun c => c.code == code)

/-- `CouponCRUD.get_coupon_by_id`: first row with the given id. -/
def get_coupon_by_id (db : List Coupon) (coupon_id : String) : Option Coupon :=
  db.find? (fun c => c.coupon_id == coupon_id)

/-- `CouponCRUD._calculate_discount`.  Python's `//` is floor division
(`Int.fdiv`); `if coupon.max_discount_amount and ...` is a truthiness test,
so a `max_discount_amount` of `0` does not clamp. -/
def calculate_discount (coupon : Coupon) (order_amount : Int) : Int :=
  if coupon.discount_type = "percentage" then
    let d := Int.fdiv (order_amount * coupon.discount_value) 10000
    match coupon.max_discount_amount with
    | some m => if m ≠ 0 ∧ d > m then m else d
    | none => d
  else if coupon.discount_type = "fixed" then
    if coupon.discount_value > order_amount then order_amount
    else coupon.discount_value
  else 0

/-- `if coupon.start_at and current_time < coupon.start_at` (a present
`datetime` is always truthy). -/
def beforeStart (c : Coupon) (now : Int) : Bool :=
  match c.start_at with
  | some s => decide (now < s)
  | none => false

/-- `if coupon.end_at and current_time > coupon.end_at`. -/
def afterEnd (c : Coupon) (now : Int) : Bool :=
  match c.end_at with
  | some e => decide (now > e)
  | none => false

/-- `if coupon.usage_limit and coupon.used_count >= coupon.usage_limit`
(truthiness: `usage_limit = 0` skips the check). -/
def usageExhausted (c : Coupon) : Bool :=
  match c.usage_limit with
  | some l => decide (l ≠ 0 ∧ c.used_count ≥ l)
  | none => false

/-- `if coupon.min_order_amount and order_amount < coupon.min_order_amount`. -/
def belowMinOrder (c : Coupon) (order_amount : Int) : Bool :=
  match c.min_order_amount with
  | some m => decide (m ≠ 0 ∧ order_amount < m)
  | none => false

/-- `CouponCRUD.validate_coupon`; `now` stands for `datetime.utcnow()`. -/
def validate_coupon (db : List Coupon) (now : Int) (coupon_code : String)
    (order_amount : Int) : CouponValidationResult :=
  match get_coupon_by_code db coupon_code with
  | none =>
      ⟨false, none, none, 0, order_amount, some .notFound⟩
  | some coupon =>
      if ¬ coupon.is_active then
        ⟨false, none, none, 0, order_amount, some .disabled⟩
      else if beforeStart coupon now then
        ⟨false, none, none, 0, order_amount, some .notYetActive⟩
      else if afterEnd coupon now then
        ⟨false, none, none, 0, order_amount, some .expired⟩
      else if usageExhausted coupon then
        ⟨false, none, none, 0, order_amount, some .usageLimitReached⟩
      else if belowMinOrder coupon order_amount then
        ⟨false, none, none, 0, order_amount,
          some (.belowMinimum (coupon.min_order_amount.getD 0))⟩
      else
        let discount_amount := calculate_discount coupon order_amount
        ⟨true, some coupon.coupon_id, some coupon.name, discount_amount,
          order_amount - discount_amount, none⟩

/-- Mutating the single row that `.first()` returned: rewrite the first
element of the list satisfying `p`. -/
def updateFirst (p : α → Bool) (f : α → α) : List α → List α
  | [] => []
  | x :: xs => if p x then f x :: xs else x :: updateFirst p f xs

/-- `CouponCRUD.increment_usage_count`: `used_count += 1` when found. -/
def increment_usage_count (db : List Coupon) (coupon_id : String) :
    List Coupon :=
  match get_coupon_by_id db coupon_id with
  | some _ => updateFirst (fun c => c.coupon_id == coupon_id)
      (fun c => { c with used_count := c.used_count + 1 }) db
  | none => db

/-- `CouponCRUD.decrement_usage_count`: `used_count -= 1` when found and
`used_count > 0`. -/
def decrement_usage_count (db : List Coupon) (coupon_id : String) :
    List Coupon :=
  match get_coupon_by_id db coupon_id with
  | some c =>
      if c.used_count > 0 then
        updateFirst (fun c => c.coupon_id == coupon_id)
          (fun c => { c with used_count := c.used_count - 1 }) db
      else db
  | none => db

/-- `CouponUpdate` (schema) with `exclude_unset` semantics: an outer `none`
means the field was not supplied; `used_count` is not updatable. -/
structure CouponUpdateData where
  name : Option String
  discount_type : Option String
  discount_value : Option Int
  min_order_amount : Option (Option Int)
  max_discount_amount : Option (Option Int)
  usage_limit : Option (Option Int)
  is_active : Option Bool
  start_at : Option (Option Int)
  end_at : Option (Option Int)
  deriving Repr, DecidableEq

/-- The `setattr` loop of `CouponCRUD.update_coupon`. -/
def applyCouponUpdate (u : CouponUpdateData) (c : Coupon) : Coupon :=
  { c with
    name := u.name.getD c.name
    discount_type := u.discount_type.getD c.discount_type
    discount_value := u.discount_value.getD c.discount_value
    min_order_amount := u.min_order_amount.getD c.min_order_amount
    max_discount_amount := u.max_discount_amount.getD c.max_discount_amount
    usage_limit := u.usage_limit.getD c.usage_limit
    is_active := u.is_active.getD c.is_active
    start_at := u.start_at.getD c.start_at
    end_at := u.end_at.getD c.end_at }

/-! ## Availability engine (`app/crud/schedule_crud.py`) -/

/-- A row of `stylist_schedules`: times of day in minutes. -/
structure ScheduleRow where
  stylist_id : String
  day_of_week : Int
  start_time : Int
  end_time : Int
  deriving Repr, DecidableEq

/-- A row of `stylist_time_off`: absolute zone-normalized instants. -/
structure TimeOffRow where
  stylist_id : String
  start_datetime : Int
  end_datetime : Int
  deriving Repr, DecidableEq

/-- `ScheduleCRUD.get_stylist_schedule_by_day`. -/
def get_stylist_schedule_by_day (db : List ScheduleRow) (stylist_id : String)
    (day_of_week : Int) : Option ScheduleRow :=
  db.find? (fun r => r.stylist_id == stylist_id && r.day_of_week == day_of_week)

/-- `ScheduleCRUD.get_stylist_time_offs` with `start_date = end_date = d`:
rows with `end_datetime ≥ d 00:00` and `start_datetime ≤ d 23:59`
(`time.max`, at the model's minute granularity). -/
def get_stylist_time_offs_on (db : List TimeOffRow) (stylist_id : String)
    (d : Int) : List TimeOffRow :=
  db.filter (fun t => t.stylist_id == stylist_id
    && decide (t.end_datetime ≥ combineDT d 0)
    && decide (t.start_datetime ≤ combineDT d 1439))

/-- `ScheduleCRUD.is_stylist_available`. -/
def is_stylist_available (schedules : List ScheduleRow)
    (time_offs : List TimeOffRow) (stylist_id : String) (t : Int) : Bool :=
  let on_leave := time_offs.any (fun x => x.stylist_id == stylist_id
    && decide (x.start_datetime ≤ t) && decide (x.end_datetime ≥ t))
  if on_leave then false
  else
    match get_stylist_schedule_by_day schedules stylist_id
        (adjustedDay (nativeWeekday (dtDate t))) with
    | none => false
    | some schedule =>
        decide (schedule.start_time ≤ dtTime t ∧ dtTime t ≤ schedule.end_time)

/-- The `while` loop of `ScheduleCRUD.get_stylist_available_slots`: walk in
steps of `dur` from `cur`, emit `[cur, cur + dur)` unless some time-off
fully contains it, stop when the slot's end would pass `endT`.  The source
loops forever when `slot_duration ≤ 0`; the `0 < dur` guard below makes the
Lean function total, and it agrees with the source on terminating inputs. -/
def slotsLoop (time_offs : List TimeOffRow) (dur endT cur : Int) :
    List (Int × Int) :=
  if h : 0 < dur ∧ cur + dur ≤ endT then
    let slot_end := cur + dur
    let is_blocked := time_offs.any (fun x =>
      decide (x.start_datetime ≤ cur) && decide (x.end_datetime ≥ slot_end))
    if is_blocked then slotsLoop time_offs dur endT (cur + dur)
    else (cur, slot_end) :: slotsLoop time_offs dur endT (cur + dur)
  else []
  termination_by (endT - cur).toNat
  decreasing_by all_goals omega

/-- `ScheduleCRUD.get_stylist_available_slots` (the returned dicts are
modelled by their `(start_date, end_date)` instants). -/
def get_stylist_available_slots (schedules : List ScheduleRow)
    (time_offs : List TimeOffRow) (stylist_id : String) (target_date : Int)
    (slot_duration : Int) : List (Int × Int) :=
  match get_stylist_schedule_by_day schedules stylist_id
      (adjustedDay (nativeWeekday target_date)) with
  | none => []
  | some schedule =>
      let day_offs := get_stylist_time_offs_on time_offs stylist_id target_date
      slotsLoop day_offs slot_duration (combineDT target_date schedule.end_time)
        (combineDT target_date schedule.start_time)

/-! ## Scheduling conflict checker (`app/crud/appointment_crud.py`) -/

/-- A row of `appointments` (fields used by the conflict check). -/
structure AppointmentRow where
  appointment_id : String
  stylist_id : String
  status : String
  start_time : Int
  end_time : Int
  deriving Repr, DecidableEq

/-- `AppointmentCRUD.check_time_conflict`: `query.first() is not None` over
the filters; `if exclude_appointment_id:` is string truthiness. -/
def check_time_conflict (db : List AppointmentRow) (stylist_id : String)
    (start_time end_time : Int) (exclude_appointment_id : Option String) :
    Bool :=
  db.any (fun a => a.stylist_id == stylist_id
    && (a.status == "confirmed" || a.status == "in_progress")
    && decide (a.start_time < end_time) && decide (a.end_time > start_time)
    && (if optStrTruthy exclude_appointment_id then
          a.appointment_id != exclude_appointment_id.getD ""
        else true))

/-! ## Store hours (`app/crud/store_crud.py`) -/

/-- A row of `store_business_hours`; times nullable when `is_closed`. -/
structure BusinessHoursRow where
  day_of_week : Int
  open_time : Option Int
  close_time : Option Int
  is_closed : Bool
  deriving Repr, DecidableEq

/-- A row of `store_closures`. -/
structure ClosureRow where
  start_datetime : Int
  end_datetime : Int
  deriving Repr, DecidableEq

/-- `StoreCRUD.get_business_hours_by_day`. -/
def get_business_hours_by_day (db : List BusinessHoursRow) (day_of_week : Int) :
    Option BusinessHoursRow :=
  db.find? (fun h => h.day_of_week == day_of_week)

/-- `StoreCRUD.get_active_closures`. -/
def get_active_closures (db : List ClosureRow) (t : Int) : List ClosureRow :=
  db.filter (fun c => decide (c.start_datetime ≤ t)
    && decide (c.end_datetime ≥ t))

/-- `StoreCRUD.is_store_open`.  `none` models the `TypeError` raised when
the chained comparison `open_time <= now <= close_time` reaches a null time
on a row with `is_closed = false`; the chain short-circuits, so a null
`close_time` only raises when `open_time <= now` held. -/
def is_store_open (hours : List BusinessHoursRow) (closures : List ClosureRow)
    (t : Int) : Option Bool :=
  if (get_active_closures closures t).isEmpty = false then some false
  else
    match get_business_hours_by_day hours
        (adjustedDay (nativeWeekday (dtDate t))) with
    | none => some false
    | some bh =>
        if bh.is_closed then some false
        else
          match bh.open_time with
          | none => none
          | some o =>
              if decide (o ≤ dtTime t) then
                match bh.close_time with
                | none => none
                | some c => some (decide (dtTime t ≤ c))
              else some false

/-- One iteration of the day loop of `StoreCRUD.get_next_open_time`:
the candidate instant produced for day `from + i`, when that day's row
exists, is not closed, has an `open_time`, and the opening instant is
closure-free and strictly after `fromT`. -/
def nextOpenCandidate (hours : List BusinessHoursRow)
    (closures : List ClosureRow) (fromT : Int) (i : Nat) : Option Int :=
  let check_date := dtDate fromT + (i : Int)
  match get_business_hours_by_day hours
      (adjustedDay (nativeWeekday check_date)) with
  | none => none
  | some bh =>
      if bh.is_closed = false ∧ bh.open_time.isSome then
        let next_open := combineDT check_date (bh.open_time.getD 0)
        if (get_active_closures closures next_open).isEmpty ∧
            next_open > fromT then
          some next_open
        else none
      else none

/-- The `for i in range(7)` loop with early `return`. -/
def nextOpenScan (hours : List BusinessHoursRow) (closures : List ClosureRow)
    (fromT : Int) : List Nat → Option Int
  | [] => none
  | i :: rest =>
      match nextOpenCandidate hours closures fromT i with
      | some t => some t
      | none => nextOpenScan hours closures fromT rest

/-- `StoreCRUD.get_next_open_time`. -/
def get_next_open_time (hours : List BusinessHoursRow)
    (closures : List ClosureRow) (fromT : Int) : Option Int :=
  nextOpenScan hours closures fromT (List.range 7)

/-! ## Order pricing engine (`app/crud/order_crud.py`) -/

/-- A row of `orders` (fields used by the pricing engine). -/
structure OrderRow where
  order_id : String
  user_id : String
  coupon_id : Option String
  total_amount : Int
  discount_amount : Int
  final_amount : Int
  status : String
  deriving Repr, DecidableEq

/-- A row of `order_details`. -/
structure OrderDetailRow where
  order_detail_id : String
  order_id : String
  product_id : String
  quantity : Int
  price_per_item : Int
  total_price : Int
  deriving Repr, DecidableEq

/-- An `OrderDetailCreate` payload plus the id generated for the new row. -/
structure NewDetail where
  order_detail_id : String
  product_id : String
  quantity : Int
  price_per_item : Int
  deriving Repr, DecidableEq

/-- `OrderDetailUpdate` with `exclude_unset` semantics. -/
structure OrderDetailUpdateData where
  quantity : Option Int
  price_per_item : Option Int
  deriving Repr, DecidableEq

/-- The record store visible to the pricing engine. -/
structure SysState where
  coupons : List Coupon
  orders : List OrderRow
  details : List OrderDetailRow
  deriving Repr, DecidableEq

/-- `OrderCRUD.get_order_by_id`. -/
def get_order_by_id (s : SysState) (order_id : String) : Option OrderRow :=
  s.orders.find? (fun o => o.order_id == order_id)

/-- `OrderCRUD.create_order`; `newOid` stands for the generated uuid. -/
def create_order (s : SysState) (now : Int) (newOid user_id : String)
    (dets : List NewDetail) (coupon_code : Option String) : SysState :=
  let subtotal := (dets.map (fun d => d.quantity * d.price_per_item)).sum
  let applied :=
    if optStrTruthy coupon_code then
      let v := validate_coupon s.coupons now (coupon_code.getD "") subtotal
      if v.is_valid then (v.coupon_id, v.discount_amount) else (none, 0)
    else (none, 0)
  let coupon_id : Option String := applied.1
  let discount_amount := applied.2
  let newOrder : OrderRow :=
    ⟨newOid, user_id, coupon_id, subtotal, discount_amount,
      subtotal - discount_amount, "pending"⟩
  let newDetails := dets.map (fun d =>
    (⟨d.order_detail_id, newOid, d.product_id, d.quantity, d.price_per_item,
      d.quantity * d.price_per_item⟩ : OrderDetailRow))
  let coupons' :=
    if optStrTruthy coupon_id then
      increment_usage_count s.coupons (coupon_id.getD "")
    else s.coupons
  { coupons := coupons', orders := s.orders ++ [newOrder],
    details := s.details ++ newDetails }

/-- `OrderCRUD.apply_coupon_to_order`; `none` models the raised
`ValueError` (or a missing order, which the caller rules out). -/
def apply_coupon_to_order (s : SysState) (now : Int) (order_id code : String) :
    Option SysState :=
  match get_order_by_id s order_id with
  | none => none
  | some o =>
      let v := validate_coupon s.coupons now code o.total_amount
      if v.is_valid = false then none
      else
        let coupons1 :=
          if optStrTruthy o.coupon_id then
            decrement_usage_count s.coupons (o.coupon_id.getD "")
          else s.coupons
        let coupons2 := increment_usage_count coupons1 (v.coupon_id.getD "")
        let setC := fun (x : OrderRow) =>
          { x with coupon_id := v.coupon_id
                   discount_amount := v.discount_amount
                   final_amount := x.total_amount - v.discount_amount }
        let orders' := updateFirst (fun x => x.order_id == order_id) setC s.orders
        some { s with coupons := coupons2, orders := orders' }

/-- `OrderCRUD.remove_coupon_from_order`. -/
def remove_coupon_from_order (s : SysState) (order_id : String) : SysState :=
  match get_order_by_id s order_id with
  | none => s
  | some o =>
      if optStrTruthy o.coupon_id then
        let coupons' := decrement_usage_count s.coupons (o.coupon_id.getD "")
        let clearC := fun (x : OrderRow) =>
          { x with coupon_id := (none : Option String)
                   discount_amount := (0 : Int)
                   final_amount := x.total_amount }
        let orders' := updateFirst (fun x => x.order_id == order_id) clearC s.orders
        { s with coupons := coupons', orders := orders' }
      else s

/-- `OrderCRUD.delete_order`: decrement a linked coupon, then delete the
order and (by cascade) its detail rows. -/
def delete_order (s : SysState) (order_id : String) : SysState :=
  match get_order_by_id s order_id with
  | none => s
  | some o =>
      let coupons' :=
        if optStrTruthy o.coupon_id then
          decrement_usage_count s.coupons (o.coupon_id.getD "")
        else s.coupons
      { coupons := coupons',
        orders := s.orders.eraseP (fun x => x.order_id == order_id),
        details := s.details.filter (fun d => d.order_id != order_id) }

/-- `CouponCRUD.update_coupon` lifted to the store (the router passes the
row fetched by id). -/
def update_coupon (s : SysState) (coupon_id : String) (u : CouponUpdateData) :
    SysState :=
  match get_coupon_by_id s.coupons coupon_id with
  | none => s
  | some _ =>
      let coupons' := updateFirst (fun c => c.coupon_id == coupon_id)
        (applyCouponUpdate u) s.coupons
      { s with coupons := coupons' }

/-- `OrderDetailCRUD._update_order_amounts`: `total_amount` becomes the SQL
`SUM` of `total_price` over the order's detail rows (`or 0` when empty) and
`final_amount = total_amount - discount_amount`. -/
def update_order_amounts (s : SysState) (order_id : String) : SysState :=
  match get_order_by_id s order_id with
  | none => s
  | some _ =>
      let subtotal :=
        ((s.details.filter (fun d => d.order_id == order_id)).map
          (fun d => d.total_price)).sum
      let recompute := fun (o : OrderRow) =>
        { o with total_amount := subtotal
                 final_amount := subtotal - o.discount_amount }
      let orders' := updateFirst (fun x => x.order_id == order_id)
        recompute s.orders
      { s with orders := orders' }

/-- `OrderDetailCRUD.add_detail_to_order` (the pending row is visible to the
`SUM` through autoflush). -/
def add_detail_to_order (s : SysState) (order_id : String) (d : NewDetail) :
    SysState :=
  let row : OrderDetailRow :=
    ⟨d.order_detail_id, order_id, d.product_id, d.quantity, d.price_per_item,
      d.quantity * d.price_per_item⟩
  update_order_amounts { s with details := s.details ++ [row] } order_id

/-- `OrderDetailCRUD.update_order_detail`: apply the supplied fields, then
`total_price = quantity * price_per_item`, then recompute the order. -/
def update_order_detail (s : SysState) (detail_id : String)
    (u : OrderDetailUpdateData) : SysState :=
  match s.details.find? (fun d => d.order_detail_id == detail_id) with
  | none => s
  | some d0 =>
      let setD := fun (d : OrderDetailRow) =>
        let q := u.quantity.getD d.quantity
        let p := u.price_per_item.getD d.price_per_item
        { d with quantity := q, price_per_item := p, total_price := q * p }
      let details' := updateFirst
        (fun d => d.order_detail_id == detail_id) setD s.details
      update_order_amounts { s with details := details' } d0.order_id

/-- `OrderDetailCRUD.delete_order_detail`. -/
def delete_order_detail (s : SysState) (detail_id : String) : SysState :=
  match s.details.find? (fun d => d.order_detail_id == detail_id) with
  | none => s
  | some d0 =>
      update_order_amounts
        { s with details :=
            s.details.eraseP (fun d => d.order_detail_id == detail_id) }
        d0.order_id

/-- The engine operations quantified over by the usage-count claims. -/
inductive EngineOp where
  | createOrder (now : Int) (newOid user_id : String) (dets : List NewDetail)
      (coupon_code : Option String)
  | applyCoupon (now : Int) (order_id code : String)
  | removeCoupon (order_id : String)
  | deleteOrder (order_id : String)
  | incUsage (coupon_id : String)
  | decUsage (coupon_id : String)
  | updateCoupon (coupon_id : String) (u : CouponUpdateData)
  | addDetail (order_id : String) (d : NewDetail)
  | updateDetail (detail_id : String) (u : OrderDetailUpdateData)
  | deleteDetail (detail_id : String)

/-- One engine operation against the store (a failed coupon application
raises and leaves the store unchanged). -/
def stepOp (s : SysState) : EngineOp → SysState
  | .createOrder now newOid user dets cc => create_order s now newOid user dets cc
  | .applyCoupon now oid code => (apply_coupon_to_order s now oid code).getD s
  | .removeCoupon oid => remove_coupon_from_order s oid
  | .deleteOrder oid => delete_order s oid
  | .incUsage cid => { s with coupons := increment_usage_count s.coupons cid }
  | .decUsage cid => { s with coupons := decrement_usage_count s.coupons cid }
  | .updateCoupon cid u => update_coupon s cid u
  | .addDetail oid d => add_detail_to_order s oid d
  | .updateDetail did u => update_order_detail s did u
  | .deleteDetail did => delete_order_detail s did

/-- Run a sequence of engine operations. -/
def runOps (s : SysState) : List EngineOp → SysState
  | [] => s
  | op :: rest => runOps (stepOp s op) rest

/-! ## Specification-side definitions (written from the spec's words, for
comparison with the code-side definitions above) -/

/-- The percentage/fixed discount rule exactly as the spec words it:
`min(floor(amount*value/10000), max_discount_amount or +inf)` — the clamp
applies whenever `max_discount_amount` is *set* — and `min(value, amount)`
for fixed coupons. -/
def specClaimDiscount (c : Coupon) (amount : Int) : Int :=
  if c.discount_type = "percentage" then
    let d := Int.fdiv (amount * c.discount_value) 10000
    match c.max_discount_amount with
    | some m => if d > m then m else d
    | none => d
  else min c.discount_value amount

/-- The discount rule amended by the truthiness counterexample: the clamp
applies when `max_discount_amount` is set *to a nonzero value* and exceeded. -/
def specAmendedDiscount (c : Coupon) (amount : Int) : Int :=
  if c.discount_type = "percentage" then
    let d := Int.fdiv (amount * c.discount_value) 10000
    match c.max_discount_amount with
    | some m => if m ≠ 0 ∧ d > m then m else d
    | none => d
  else min c.discount_value amount

/-! ## Helper lemmas -/

theorem fdiv_basis_points_le (a v : Int) (ha : 0 ≤ a) (hv : v ≤ 10000) :
    Int.fdiv (a * v) 10000 ≤ a := by
  rw [Int.fdiv_eq_ediv _ (by norm_num)]
  calc a * v / 10000 ≤ a * 10000 / 10000 := by
        apply Int.ediv_le_ediv (by norm_num)
        exact mul_le_mul_of_nonneg_left hv ha
    _ = a := by rw [Int.mul_ediv_cancel _ (by norm_num)]

theorem beforeStart_iff (c : Coupon) (now : Int) :
    beforeStart c now = true ↔ ∃ s, c.start_at = some s ∧ now < s := by
  unfold beforeStart; cases c.start_at <;> simp

theorem afterEnd_iff (c : Coupon) (now : Int) :
    afterEnd c now = true ↔ ∃ e, c.end_at = some e ∧ e < now := by
  unfold afterEnd; cases c.end_at <;> simp

theorem usageExhausted_iff (c : Coupon) (hwf : c.usage_limit ≠ some 0) :
    usageExhausted c = true ↔ ∃ l, c.usage_limit = some l ∧ l ≤ c.used_count := by
  unfold usageExhausted
  cases h : c.usage_limit with
  | none => simp
  | some l =>
      have hl : l ≠ 0 := fun h0 => hwf (by rw [h, h0])
      constructor
      · intro hb
        rw [decide_eq_true_eq] at hb
        exact ⟨l, rfl, hb.2⟩
      · rintro ⟨l', hl', hle⟩
        obtain rfl := Option.some_injective _ hl'
        rw [decide_eq_true_eq]
        exact ⟨hl, hle⟩

theorem belowMinOrder_iff (c : Coupon) (amount : Int) (hamt : 0 ≤ amount) :
    belowMinOrder c amount = true ↔
      ∃ m, c.min_order_amount = some m ∧ amount < m := by
  unfold belowMinOrder
  cases h : c.min_order_amount with
  | none => simp
  | some m =>
      constructor
      · intro hb
        rw [decide_eq_true_eq] at hb
        exact ⟨m, rfl, hb.2⟩
      · rintro ⟨m', hm', hlt⟩
        obtain rfl := Option.some_injective _ hm'
        rw [decide_eq_true_eq]
        omega

/-- Shape of a successful validation: the result is the success record
built from the coupon the code resolved to. -/
theorem validate_coupon_success (db : List Coupon) (now : Int) (code : String)
    (amount : Int) (c : Coupon) (hfound : get_coupon_by_code db code = some c)
    (hvalid : (validate_coupon db now code amount).is_valid = true) :
    validate_coupon db now code amount =
      ⟨true, some c.coupon_id, some c.name, calculate_discount c amount,
        amount - calculate_discount c amount, none⟩ := by
  unfold validate_coupon at hvalid ⊢
  rw [hfound] at hvalid ⊢
  dsimp only at hvalid ⊢
  split_ifs at hvalid ⊢ <;> simp_all

/-! ## Claim C1: discount computation for successfully validated coupons -/

/-- A percentage coupon with `max_discount_amount = 0`: creatable (the
schema only requires `max_discount_amount ≥ 0`, and its custom validator
is vacuous), and validating fine. -/
def couponMaxZero : Coupon :=
  { coupon_id := "c-max0", code := "MAXZERO", name := "max zero"
    discount_type := "percentage", discount_value := 10000
    min_order_amount := none, max_discount_amount := some 0
    usage_limit := none, used_count := 0, is_active := true
    start_at := none, end_at := none }

/-- C1, counterexample: a 100% percentage coupon with `max_discount_amount`
set to `0` validates successfully at `order_amount = 100`, yet the code
returns a discount of `100` where the spec's formula — clamp whenever
`max_discount_amount` is set and exceeded — demands `0`: Python's
truthiness test `if coupon.max_discount_amount and ...` skips the clamp
when the cap is `0`. -/
theorem claim_C1_counterexample :
    (validate_coupon [couponMaxZero] 0 "MAXZERO" 100).is_valid = true ∧
    (validate_coupon [couponMaxZero] 0 "MAXZERO" 100).discount_amount = 100 ∧
    specClaimDiscount couponMaxZero 100 = 0 := by
  decide

theorem calculate_discount_eq_specAmended (c : Coupon) (amount : Int)
    (htype : c.discount_type = "percentage" ∨ c.discount_type = "fixed") :
    calculate_discount c amount = specAmendedDiscount c amount := by
  unfold calculate_discount specAmendedDiscount
  split_ifs with h1 h2 h3
  · rfl
  · exact (min_eq_right (le_of_lt h3)).symm
  · exact (min_eq_left (not_lt.mp h3)).symm
  · rcases htype with h | h
    · exact absurd h h1
    · exact absurd h h2

theorem calculate_discount_le (c : Coupon) (amount : Int) (hamt : 0 ≤ amount)
    (hbp : c.discount_type = "percentage" → c.discount_value ≤ 10000) :
    calculate_discount c amount ≤ amount := by
  unfold calculate_discount
  split_ifs with h1 h2 h3
  · have hd : Int.fdiv (amount * c.discount_value) 10000 ≤ amount :=
      fdiv_basis_points_le amount c.discount_value hamt (hbp h1)
    cases hm : c.max_discount_amount with
    | none => exact hd
    | some m =>
        dsimp only
        split_ifs with hclamp
        · exact le_trans (le_of_lt hclamp.2) hd
        · exact hd
  · exact le_refl amount
  · exact not_lt.mp h3
  · exact hamt

/-- C1 (amended): for every coupon that validates successfully against a
nonnegative `order_amount`: a percentage discount is
`floor(order_amount * discount_value / 10000)` clamped down to
`max_discount_amount` when that is set to a *nonzero* value and exceeded
(Python's truthiness test treats a zero cap as absent); a fixed discount is
`min(discount_value, order_amount)`; with `discount_value ≤ 10000` basis
points for percentage coupons (as enforced at creation) the discount never
exceeds `order_amount`; and `final_amount + discount_amount =
order_amount`. -/
theorem claim_C1_amended (db : List Coupon) (now amount : Int) (code : String)
    (c : Coupon) (hfound : get_coupon_by_code db code = some c)
    (hvalid : (validate_coupon db now code amount).is_valid = true)
    (hamt : 0 ≤ amount)
    (hbp : c.discount_type = "percentage" → c.discount_value ≤ 10000)
    (htype : c.discount_type = "percentage" ∨ c.discount_type = "fixed") :
    (validate_coupon db now code amount).discount_amount =
        specAmendedDiscount c amount ∧
    (validate_coupon db now code amount).discount_amount ≤ amount ∧
    (validate_coupon db now code amount).final_amount +
        (validate_coupon db now code amount).discount_amount = amount := by
  rw [validate_coupon_success db now code amount c hfound hvalid]
  exact ⟨calculate_discount_eq_specAmended c amount htype,
    calculate_discount_le c amount hamt hbp, by dsimp only; ring⟩

/-- The spec's worked example: code `SAVE10`, 10% (1000 basis points),
minimum order 50.00. -/
def couponSave10 : Coupon :=
  { coupon_id := "c-save10", code := "SAVE10", name := "Save 10%"
    discount_type := "percentage", discount_value := 1000
    min_order_amount := some 5000, max_discount_amount := none
    usage_limit := none, used_count := 0, is_active := true
    start_at := none, end_at := none }

theorem claim_C1_witness :
    (validate_coupon [couponSave10] 0 "SAVE10" 10000).is_valid = true ∧
    (validate_coupon [couponSave10] 0 "SAVE10" 10000).discount_amount =
        specAmendedDiscount couponSave10 10000 ∧
    (validate_coupon [couponSave10] 0 "SAVE10" 10000).discount_amount ≤ 10000 ∧
    (validate_coupon [couponSave10] 0 "SAVE10" 10000).final_amount +
        (validate_coupon [couponSave10] 0 "SAVE10" 10000).discount_amount
      = 10000 := by
  have h := claim_C1_amended [couponSave10] 0 10000 "SAVE10" couponSave10
    (by decide) (by decide) (by decide) (fun _ => by decide)
    (Or.inl (by decide))
  exact ⟨by decide, h.1, h.2.1, h.2.2⟩

/-! ## Claim C2: validation check order and error messages -/

theorem validate_coupon_disabled (db : List Coupon) (now amount : Int)
    (code : String) (c : Coupon) (hc : get_coupon_by_code db code = some c)
    (hact : c.is_active = false) :
    validate_coupon db now code amount =
      ⟨false, none, none, 0, amount, some .disabled⟩ := by
  unfold validate_coupon; rw [hc]; simp [hact]

theorem validate_coupon_notYet (db : List Coupon) (now amount : Int)
    (code : String) (c : Coupon) (hc : get_coupon_by_code db code = some c)
    (hact : c.is_active = true) (h1 : beforeStart c now = true) :
    validate_coupon db now code amount =
      ⟨false, none, none, 0, amount, some .notYetActive⟩ := by
  unfold validate_coupon; rw [hc]; simp [hact, h1]

theorem validate_coupon_expired (db : List Coupon) (now amount : Int)
    (code : String) (c : Coupon) (hc : get_coupon_by_code db code = some c)
    (hact : c.is_active = true) (h1 : beforeStart c now = false)
    (h2 : afterEnd c now = true) :
    validate_coupon db now code amount =
      ⟨false, none, none, 0, amount, some .expired⟩ := by
  unfold validate_coupon; rw [hc]; simp [hact, h1, h2]

theorem validate_coupon_limitReached (db : List Coupon) (now amount : Int)
    (code : String) (c : Coupon) (hc : get_coupon_by_code db code = some c)
    (hact : c.is_active = true) (h1 : beforeStart c now = false)
    (h2 : afterEnd c now = false) (h3 : usageExhausted c = true) :
    validate_coupon db now code amount =
      ⟨false, none, none, 0, amount, some .usageLimitReached⟩ := by
  unfold validate_coupon; rw [hc]; simp [hact, h1, h2, h3]

theorem validate_coupon_belowMin (db : List Coupon) (now amount : Int)
    (code : String) (c : Coupon) (hc : get_coupon_by_code db code = some c)
    (hact : c.is_active = true) (h1 : beforeStart c now = false)
    (h2 : afterEnd c now = false) (h3 : usageExhausted c = false)
    (h4 : belowMinOrder c amount = true) :
    validate_coupon db now code amount =
      ⟨false, none, none, 0, amount,
        some (.belowMinimum (c.min_order_amount.getD 0))⟩ := by
  unfold validate_coupon; rw [hc]; simp [hact, h1, h2, h3, h4]

theorem validate_coupon_allPass (db : List Coupon) (now amount : Int)
    (code : String) (c : Coupon) (hc : get_coupon_by_code db code = some c)
    (hact : c.is_active = true) (h1 : beforeStart c now = false)
    (h2 : afterEnd c now = false) (h3 : usageExhausted c = false)
    (h4 : belowMinOrder c amount = false) :
    validate_coupon db now code amount =
      ⟨true, some c.coupon_id, some c.name, calculate_discount c amount,
        amount - calculate_discount c amount, none⟩ := by
  unfold validate_coupon; rw [hc]; simp [hact, h1, h2, h3, h4]

/-- C2: `validate(code, order_amount)` is invalid iff one of the six
conditions holds; the checks run in the stated order, short-circuiting on
the first failure with a distinct error per check (the `CouponError`
constructors stand for the six pairwise-distinct source strings), and the
below-minimum message carries the coupon's minimum.  Hypotheses:
`order_amount ≥ 0` and `usage_limit ≠ 0` are the schema's creation-time
constraints (`order_amount ≥ 0`, `usage_limit ≥ 1`). -/
theorem claim_C2 (db : List Coupon) (now amount : Int) (code : String)
    (hamt : 0 ≤ amount) (hwf : ∀ c ∈ db, c.usage_limit ≠ some 0) :
    (get_coupon_by_code db code = none →
      (validate_coupon db now code amount).is_valid = false ∧
      (validate_coupon db now code amount).error_message = some .notFound) ∧
    (∀ c, get_coupon_by_code db code = some c →
      ((validate_coupon db now code amount).is_valid = false ↔
        (c.is_active = false ∨ (∃ s, c.start_at = some s ∧ now < s) ∨
         (∃ e, c.end_at = some e ∧ e < now) ∨
         (∃ l, c.usage_limit = some l ∧ l ≤ c.used_count) ∨
         (∃ m, c.min_order_amount = some m ∧ amount < m))) ∧
      (c.is_active = false →
        (validate_coupon db now code amount).error_message = some .disabled) ∧
      (c.is_active = true → (∃ s, c.start_at = some s ∧ now < s) →
        (validate_coupon db now code amount).error_message
          = some .notYetActive) ∧
      (c.is_active = true → ¬ (∃ s, c.start_at = some s ∧ now < s) →
        (∃ e, c.end_at = some e ∧ e < now) →
        (validate_coupon db now code amount).error_message = some .expired) ∧
      (c.is_active = true → ¬ (∃ s, c.start_at = some s ∧ now < s) →
        ¬ (∃ e, c.end_at = some e ∧ e < now) →
        (∃ l, c.usage_limit = some l ∧ l ≤ c.used_count) →
        (validate_coupon db now code amount).error_message
          = some .usageLimitReached) ∧
      (∀ m, c.is_active = true → ¬ (∃ s, c.start_at = some s ∧ now < s) →
        ¬ (∃ e, c.end_at = some e ∧ e < now) →
        ¬ (∃ l, c.usage_limit = some l ∧ l ≤ c.used_count) →
        c.min_order_amount = some m → amount < m →
        (validate_coupon db now code amount).error_message
          = some (.belowMinimum m)) ∧
      (c.is_active = true → ¬ (∃ s, c.start_at = some s ∧ now < s) →
        ¬ (∃ e, c.end_at = some e ∧ e < now) →
        ¬ (∃ l, c.usage_limit = some l ∧ l ≤ c.used_count) →
        ¬ (∃ m, c.min_order_amount = some m ∧ amount < m) →
        (validate_coupon db now code amount).is_valid = true ∧
        (validate_coupon db now code amount).error_message = none)) := by
  constructor
  · intro hnone
    unfold validate_coupon
    rw [hnone]
    exact ⟨rfl, rfl⟩
  · intro c hc
    have hwfc : c.usage_limit ≠ some 0 :=
      hwf c (List.mem_of_find?_eq_some hc)
    have hbs := beforeStart_iff c now
    have hae := afterEnd_iff c now
    have hux := usageExhausted_iff c hwfc
    have hbm := belowMinOrder_iff c amount hamt
    refine ⟨?_, ?_, ?_, ?_, ?_, ?_, ?_⟩
    · -- the is_valid ↔ failure-condition equivalence
      constructor
      · intro hinv
        by_cases hact : c.is_active = true
        · by_cases h1 : beforeStart c now = true
          · exact Or.inr (Or.inl (hbs.mp h1))
          · replace h1 := eq_false_of_ne_true h1
            by_cases h2 : afterEnd c now = true
            · exact Or.inr (Or.inr (Or.inl (hae.mp h2)))
            · replace h2 := eq_false_of_ne_true h2
              by_cases h3 : usageExhausted c = true
              · exact Or.inr (Or.inr (Or.inr (Or.inl (hux.mp h3))))
              · replace h3 := eq_false_of_ne_true h3
                by_cases h4 : belowMinOrder c amount = true
                · exact Or.inr (Or.inr (Or.inr (Or.inr (hbm.mp h4))))
                · replace h4 := eq_false_of_ne_true h4
                  rw [validate_coupon_allPass db now amount code c hc hact
                    h1 h2 h3 h4] at hinv
                  cases hinv
        · exact Or.inl (eq_false_of_ne_true hact)
      · intro hdisj
        by_cases hact : c.is_active = true
        · by_cases h1 : beforeStart c now = true
          · rw [validate_coupon_notYet db now amount code c hc hact h1]
          · replace h1 := eq_false_of_ne_true h1
            by_cases h2 : afterEnd c now = true
            · rw [validate_coupon_expired db now amount code c hc hact h1 h2]
            · replace h2 := eq_false_of_ne_true h2
              by_cases h3 : usageExhausted c = true
              · rw [validate_coupon_limitReached db now amount code c hc hact
                  h1 h2 h3]
              · replace h3 := eq_false_of_ne_true h3
                by_cases h4 : belowMinOrder c amount = true
                · rw [validate_coupon_belowMin db now amount code c hc hact
                    h1 h2 h3 h4]
                · replace h4 := eq_false_of_ne_true h4
                  exfalso
                  rcases hdisj with h | h | h | h | h
                  · rw [hact] at h; cases h
                  · exact absurd (hbs.mpr h) (by rw [h1]; simp)
                  · exact absurd (hae.mpr h) (by rw [h2]; simp)
                  · exact absurd (hux.mpr h) (by rw [h3]; simp)
                  · exact absurd (hbm.mpr h) (by rw [h4]; simp)
        · rw [validate_coupon_disabled db now amount code c hc
            (eq_false_of_ne_true hact)]
    · intro hact
      rw [validate_coupon_disabled db now amount code c hc hact]
    · intro hact hns
      rw [validate_coupon_notYet db now amount code c hc hact (hbs.mpr hns)]
    · intro hact hns he
      have h1 : beforeStart c now = false := by
        rw [← Bool.not_eq_true]; exact fun hb => hns (hbs.mp hb)
      rw [validate_coupon_expired db now amount code c hc hact h1
        (hae.mpr he)]
    · intro hact hns hne hl
      have h1 : beforeStart c now = false := by
        rw [← Bool.not_eq_true]; exact fun hb => hns (hbs.mp hb)
      have h2 : afterEnd c now = false := by
        rw [← Bool.not_eq_true]; exact fun hb => hne (hae.mp hb)
      rw [validate_coupon_limitReached db now amount code c hc hact h1 h2
        (hux.mpr hl)]
    · intro m hact hns hne hnl hm hlt
      have h1 : beforeStart c now = false := by
        rw [← Bool.not_eq_true]; exact fun hb => hns (hbs.mp hb)
      have h2 : afterEnd c now = false := by
        rw [← Bool.not_eq_true]; exact fun hb => hne (hae.mp hb)
      have h3 : usageExhausted c = false := by
        rw [← Bool.not_eq_true]; exact fun hb => hnl (hux.mp hb)
      rw [validate_coupon_belowMin db now amount code c hc hact h1 h2 h3
        (hbm.mpr ⟨m, hm, hlt⟩)]
      rw [hm]
      rfl
    · intro hact hns hne hnl hnm
      have h1 : beforeStart c now = false := by
        rw [← Bool.not_eq_true]; exact fun hb => hns (hbs.mp hb)
      have h2 : afterEnd c now = false := by
        rw [← Bool.not_eq_true]; exact fun hb => hne (hae.mp hb)
      have h3 : usageExhausted c = false := by
        rw [← Bool.not_eq_true]; exact fun hb => hnl (hux.mp hb)
      have h4 : belowMinOrder c amount = false := by
        rw [← Bool.not_eq_true]; exact fun hb => hnm (hbm.mp hb)
      rw [validate_coupon_allPass db now amount code c hc hact h1 h2 h3 h4]
      exact ⟨rfl, rfl⟩

/-- C2, witness: the spec's `SAVE10` scenario at `order_amount = 4000`
fails with the below-minimum error carrying the 5000 minor-unit minimum
(rendered `50.00` in the message), and at `10000` it validates. -/
theorem claim_C2_witness :
    (validate_coupon [couponSave10] 0 "SAVE10" 4000).is_valid = false ∧
    (validate_coupon [couponSave10] 0 "SAVE10" 4000).error_message
      = some (.belowMinimum 5000) ∧
    (validate_coupon [couponSave10] 0 "SAVE10" 10000).is_valid = true := by
  have h := claim_C2 [couponSave10] 0 4000 "SAVE10" (by decide)
    (by intro c hc; simp at hc; rw [hc]; decide)
  have h2 := (h.2 couponSave10 (by decide)).1
  refine ⟨h2.mpr ?_, ?_, by decide⟩
  · exact Or.inr (Or.inr (Or.inr (Or.inr ⟨5000, rfl, by decide⟩)))
  · have h6 := (h.2 couponSave10 (by decide)).2.2.2.2.2.1
    exact h6 5000 (by decide) (by rintro ⟨s, hs, -⟩; cases hs)
      (by rintro ⟨e, he, -⟩; cases he) (by rintro ⟨l, hl, -⟩; cases hl)
      rfl (by decide)

/-! ## Claim C3: available-slot generation -/

/-- The slot list as the claim words it: candidate starts
`start_time + k·dur` for `k = 0, 1, …` as long as the slot's end stays
within `end_time`, keeping a slot unless some time-off interval of the
stylist fully contains it. -/
def specSlots (schedule : ScheduleRow) (time_offs : List TimeOffRow)
    (target_date dur : Int) : List (Int × Int) :=
  let base := combineDT target_date schedule.start_time
  let n := ((schedule.end_time - schedule.start_time).fdiv dur).toNat
  (((List.range n).map (fun k : Nat => base + (k : Int) * dur)).filter (fun s =>
    ! time_offs.any (fun x => decide (x.start_datetime ≤ s)
        && decide (x.end_datetime ≥ s + dur)))).map (fun s => (s, s + dur))

theorem slotsLoop_eq_spec (tos : List TimeOffRow) (dur endT cur : Int)
    (hdur : 0 < dur) :
    slotsLoop tos dur endT cur =
      (((List.range ((endT - cur).fdiv dur).toNat).map
          (fun k : Nat => cur + (k : Int) * dur)).filter (fun s =>
        ! tos.any (fun x => decide (x.start_datetime ≤ s)
            && decide (x.end_datetime ≥ s + dur)))).map
        (fun s => (s, s + dur)) := by
  have hd0 : (0:Int) ≤ dur := le_of_lt hdur
  have hdne : dur ≠ 0 := ne_of_gt hdur
  have hsplit : ∀ x : Int, x + dur ≤ endT →
      (List.range ((endT - x).fdiv dur).toNat).map
          (fun k : Nat => x + (k : Int) * dur) =
        x :: (List.range ((endT - (x + dur)).fdiv dur).toNat).map
          (fun k : Nat => (x + dur) + (k : Int) * dur) := by
    intro x hx
    have e1 : (endT - x).fdiv dur = (endT - x) / dur :=
      Int.fdiv_eq_ediv _ hd0
    have e2 : (endT - (x + dur)).fdiv dur = (endT - (x + dur)) / dur :=
      Int.fdiv_eq_ediv _ hd0
    have e3 : endT - (x + dur) = (endT - x) + (-1) * dur := by ring
    have e4 : ((endT - x) + (-1) * dur) / dur = (endT - x) / dur + (-1) :=
      Int.add_mul_ediv_right _ _ hdne
    have hge : 1 ≤ (endT - x) / dur := by
      rw [Int.le_ediv_iff_mul_le hdur]; omega
    have hn : ((endT - x).fdiv dur).toNat =
        ((endT - (x + dur)).fdiv dur).toNat + 1 := by
      rw [e1, e2, e3, e4]; omega
    have hf : ((fun k : Nat => x + (k : Int) * dur) ∘ Nat.succ) =
        (fun k : Nat => (x + dur) + (k : Int) * dur) := by
      funext k
      simp only [Function.comp_apply]
      push_cast
      ring
    rw [hn, List.range_succ_eq_map, List.map_cons, List.map_map, hf]
    norm_num
  have hbase : ∀ c : Int, ¬ (c + dur ≤ endT) →
      slotsLoop tos dur endT c =
        (((List.range ((endT - c).fdiv dur).toNat).map
            (fun k : Nat => c + (k : Int) * dur)).filter (fun s =>
          ! tos.any (fun x => decide (x.start_datetime ≤ s)
              && decide (x.end_datetime ≥ s + dur)))).map
          (fun s => (s, s + dur)) := by
    intro c hc
    rw [slotsLoop, dif_neg (fun hh => hc hh.2)]
    have e1 : (endT - c).fdiv dur = (endT - c) / dur := Int.fdiv_eq_ediv _ hd0
    have hlt : (endT - c) / dur < 1 := by
      rw [Int.ediv_lt_iff_lt_mul hdur]; omega
    have hz : ((endT - c).fdiv dur).toNat = 0 := by rw [e1]; omega
    rw [hz]
    rfl
  suffices hall : ∀ n (c : Int), (endT - c).toNat ≤ n →
      slotsLoop tos dur endT c =
        (((List.range ((endT - c).fdiv dur).toNat).map
            (fun k : Nat => c + (k : Int) * dur)).filter (fun s =>
          ! tos.any (fun x => decide (x.start_datetime ≤ s)
              && decide (x.end_datetime ≥ s + dur)))).map
          (fun s => (s, s + dur)) by
    exact hall (endT - cur).toNat cur le_rfl
  intro n
  induction n with
  | zero =>
      intro c hc
      exact hbase c (by omega)
  | succ n ih =>
      intro c hc
      by_cases hcond : c + dur ≤ endT
      · rw [slotsLoop, dif_pos ⟨hdur, hcond⟩]
        dsimp only
        rw [hsplit c hcond, List.filter_cons]
        have ihx := ih (c + dur) (by omega)
        by_cases hbl : (tos.any (fun y => decide (y.start_datetime ≤ c)
            && decide (y.end_datetime ≥ c + dur))) = true
        · rw [if_pos hbl]
          have hpx : (! tos.any (fun y => decide (y.start_datetime ≤ c)
              && decide (y.end_datetime ≥ c + dur))) = false := by
            rw [hbl]; rfl
          rw [hpx]
          simp only [Bool.false_eq_true, if_false]
          exact ihx
        · rw [if_neg hbl]
          have hpx : (! tos.any (fun y => decide (y.start_datetime ≤ c)
              && decide (y.end_datetime ≥ c + dur))) = true := by
            rw [Bool.not_eq_true] at hbl
            rw [hbl]; rfl
          rw [hpx]
          simp only [if_true, List.map_cons]
          rw [ihx]
      · exact hbase c hcond

theorem any_filter_sub {α : Type} (l : List α) (f p q : α → Bool)
    (h1 : ∀ x ∈ l, f x = true → p x = true)
    (h2 : ∀ x ∈ l, p x = true → q x = true → f x = true) :
    (l.filter f).any q = (l.filter p).any q := by
  induction l with
  | nil => rfl
  | cons a l ih =>
      have ih' := ih (fun x hx => h1 x (List.mem_cons_of_mem a hx))
        (fun x hx => h2 x (List.mem_cons_of_mem a hx))
      by_cases hf : f a = true
      · have hp : p a = true := h1 a (List.mem_cons_self a l) hf
        simp [List.filter_cons, hf, hp, ih']
      · have hf' : f a = false := eq_false_of_ne_true hf
        by_cases hp : p a = true
        · have hq : q a = false := by
            cases hqa : q a
            · rfl
            · exact absurd (h2 a (List.mem_cons_self a l) hp hqa) hf
          simp [List.filter_cons, hf', hp, hq, ih']
        · have hp' : p a = false := eq_false_of_ne_true hp
          simp [List.filter_cons, hf', hp', ih']

/-- C3: `getAvailableSlots` returns the empty list when the stylist has no
schedule row for the (adjusted) weekday; otherwise it returns exactly the
candidate slots `[start + k·dur, start + k·dur + dur)` that stay within
`end_time`, excluding a slot only when some time-off interval of the
stylist fully contains it.  The bounds `0 ≤ start_time` and
`end_time ≤ 1439` say the schedule's times are times of day. -/
theorem claim_C3 (schedules : List ScheduleRow) (time_offs : List TimeOffRow)
    (sid : String) (target_date dur : Int) (hdur : 0 < dur) :
    (get_stylist_schedule_by_day schedules sid
        (adjustedDay (nativeWeekday target_date)) = none →
      get_stylist_available_slots schedules time_offs sid target_date dur
        = []) ∧
    (∀ sch, get_stylist_schedule_by_day schedules sid
        (adjustedDay (nativeWeekday target_date)) = some sch →
      0 ≤ sch.start_time → sch.end_time ≤ 1439 →
      get_stylist_available_slots schedules time_offs sid target_date dur =
        specSlots sch (time_offs.filter (fun x => x.stylist_id == sid))
          target_date dur) := by
  constructor
  · intro hnone
    unfold get_stylist_available_slots
    rw [hnone]
  · intro sch hsch hs0 hs1439
    unfold get_stylist_available_slots
    rw [hsch]
    dsimp only
    rw [slotsLoop_eq_spec _ _ _ _ hdur]
    unfold specSlots
    dsimp only
    have hdiff : combineDT target_date sch.end_time -
        combineDT target_date sch.start_time =
        sch.end_time - sch.start_time := by
      unfold combineDT; ring
    rw [hdiff]
    congr 1
    apply List.filter_congr
    intro s hsmem
    obtain ⟨k, hk, rfl⟩ := List.mem_map.mp hsmem
    have hk' : k < ((sch.end_time - sch.start_time).fdiv dur).toNat :=
      List.mem_range.mp hk
    have e1 : (sch.end_time - sch.start_time).fdiv dur =
        (sch.end_time - sch.start_time) / dur :=
      Int.fdiv_eq_ediv _ (le_of_lt hdur)
    have hk2 : ((k : Int) + 1) ≤ (sch.end_time - sch.start_time) / dur := by
      rw [e1] at hk'; omega
    have hkd : ((k : Int) + 1) * dur ≤ sch.end_time - sch.start_time :=
      (Int.le_ediv_iff_mul_le hdur).mp hk2
    have hkd2 : (k : Int) * dur + dur ≤ sch.end_time - sch.start_time := by
      have hr : ((k : Int) + 1) * dur = (k : Int) * dur + dur := by ring
      rw [hr] at hkd; exact hkd
    have hk0 : 0 ≤ (k : Int) * dur :=
      mul_nonneg (Int.natCast_nonneg k) (le_of_lt hdur)
    congr 1
    unfold get_stylist_time_offs_on
    apply any_filter_sub
    · intro x hx hf
      simp only [Bool.and_eq_true] at hf
      exact hf.1.1
    · intro x hx hp hq
      simp only [Bool.and_eq_true, decide_eq_true_eq] at hq ⊢
      obtain ⟨hq1, hq2⟩ := hq
      unfold combineDT at hq1 hq2 ⊢
      refine ⟨⟨hp, ?_⟩, ?_⟩
      · linarith
      · linarith

/-- C3, witness: a 09:00–17:00 schedule on day 0 (= Sunday; date 6 is a
Sunday in the model) with 60-minute slots and no time-off yields exactly
the 8 slots 09:00,10:00,…,16:00, none extending past 17:00. -/
theorem claim_C3_witness :
    (0 : Int) < 60 ∧
    get_stylist_available_slots [⟨"s1", 0, 540, 1020⟩] [] "s1" 6 60 =
      [(9180, 9240), (9240, 9300), (9300, 9360), (9360, 9420), (9420, 9480),
       (9480, 9540), (9540, 9600), (9600, 9660)] := by
  have h := (claim_C3 [⟨"s1", 0, 540, 1020⟩] [] "s1" 6 60 (by decide)).2
    ⟨"s1", 0, 540, 1020⟩ (by decide) (by decide) (by decide)
  exact ⟨by decide, h.trans (by decide)⟩

/-! ## Claim C4: appointment time-conflict check -/

/-- C4: `hasTimeConflict` is true iff some appointment of the stylist in
status confirmed/in_progress, other than the excluded one, overlaps the
half-open candidate interval (`existing.start < end ∧ existing.end >
start`); plus the spec's worked example, where an existing
[10:00, 11:00) confirmed appointment conflicts with [10:30, 11:30) but not
with the adjacent [11:00, 12:00).  The hypothesis `excl ≠ some ""` reflects
that appointment ids are nonempty uuids (an empty exclusion string is falsy
and would disable the exclusion filter). -/
theorem claim_C4 :
    (∀ (db : List AppointmentRow) (sid : String) (startT endT : Int)
        (excl : Option String), excl ≠ some "" →
      (check_time_conflict db sid startT endT excl = true ↔
        ∃ a ∈ db, a.stylist_id = sid ∧
          (a.status = "confirmed" ∨ a.status = "in_progress") ∧
          (∀ e, excl = some e → a.appointment_id ≠ e) ∧
          a.start_time < endT ∧ a.end_time > startT)) ∧
    check_time_conflict [⟨"a1", "sty", "confirmed", 600, 660⟩] "sty" 630 690
      none = true ∧
    check_time_conflict [⟨"a1", "sty", "confirmed", 600, 660⟩] "sty" 660 720
      none = false := by
  refine ⟨?_, by decide, by decide⟩
  intro db sid startT endT excl hexcl
  unfold check_time_conflict
  rw [List.any_eq_true]
  refine exists_congr fun a => and_congr_right fun _ => ?_
  cases excl with
  | none =>
      simp only [optStrTruthy, Bool.and_eq_true, decide_eq_true_eq,
        Bool.or_eq_true, beq_iff_eq, if_false, Bool.and_true,
        reduceCtorEq, false_implies, forall_const, true_and]
      tauto
  | some e =>
      have he : e ≠ "" := fun h => hexcl (by rw [h])
      have hdec : (decide (e ≠ "")) = true := decide_eq_true he
      simp only [optStrTruthy, hdec, eq_self_iff_true, if_true,
        decide_eq_true_eq, Bool.and_eq_true, Bool.or_eq_true, beq_iff_eq,
        bne_iff_ne, Option.getD_some, Option.some.injEq, forall_eq']
      tauto

/-! ## Claim C5: stylist availability at an instant -/

theorem adjustedDay_eq_mod (d : Int) :
    adjustedDay (nativeWeekday d) = (nativeWeekday d + 1) % 7 := by
  unfold adjustedDay nativeWeekday
  have h0 : 0 ≤ d % 7 := Int.emod_nonneg d (by norm_num)
  have h7 : d % 7 < 7 := Int.emod_lt_of_pos d (by norm_num)
  by_cases h : d % 7 = 6
  · rw [if_pos h, h]; decide
  · rw [if_neg h]
    omega

/-- C5: `isStylistAvailable` is false when some time-off interval of the
stylist contains the instant (inclusive bounds); otherwise the weekday is
mapped via `(native_weekday + 1) mod 7`, a missing schedule row gives
false, and with a row the result is true iff
`start_time ≤ time_of_day ≤ end_time`, inclusive at both ends. -/
theorem claim_C5 (schedules : List ScheduleRow) (time_offs : List TimeOffRow)
    (sid : String) (t : Int) :
    ((∃ x ∈ time_offs, x.stylist_id = sid ∧ x.start_datetime ≤ t ∧
        t ≤ x.end_datetime) →
      is_stylist_available schedules time_offs sid t = false) ∧
    (¬ (∃ x ∈ time_offs, x.stylist_id = sid ∧ x.start_datetime ≤ t ∧
        t ≤ x.end_datetime) →
      (get_stylist_schedule_by_day schedules sid
          ((nativeWeekday (dtDate t) + 1) % 7) = none →
        is_stylist_available schedules time_offs sid t = false) ∧
      (∀ sch, get_stylist_schedule_by_day schedules sid
          ((nativeWeekday (dtDate t) + 1) % 7) = some sch →
        (is_stylist_available schedules time_offs sid t = true ↔
          sch.start_time ≤ dtTime t ∧ dtTime t ≤ sch.end_time))) := by
  have hadj := adjustedDay_eq_mod (dtDate t)
  have hleave : (time_offs.any (fun x => x.stylist_id == sid
      && decide (x.start_datetime ≤ t) && decide (x.end_datetime ≥ t)))
        = true ↔
      ∃ x ∈ time_offs, x.stylist_id = sid ∧ x.start_datetime ≤ t ∧
        t ≤ x.end_datetime := by
    rw [List.any_eq_true]
    constructor
    · rintro ⟨x, hx, hc⟩
      simp only [Bool.and_eq_true, decide_eq_true_eq, beq_iff_eq] at hc
      exact ⟨x, hx, hc.1.1, hc.1.2, hc.2⟩
    · rintro ⟨x, hx, h1, h2, h3⟩
      refine ⟨x, hx, ?_⟩
      simp only [Bool.and_eq_true, decide_eq_true_eq, beq_iff_eq]
      exact ⟨⟨h1, h2⟩, h3⟩
  constructor
  · intro hex
    unfold is_stylist_available
    dsimp only
    rw [if_pos (hleave.mpr hex)]
  · intro hnex
    have hol : (time_offs.any (fun x => x.stylist_id == sid
        && decide (x.start_datetime ≤ t) && decide (x.end_datetime ≥ t)))
          = false := by
      rw [← Bool.not_eq_true]
      exact fun hb => hnex (hleave.mp hb)
    constructor
    · intro hnone
      unfold is_stylist_available
      dsimp only
      rw [if_neg (by rw [hol]; exact Bool.false_ne_true), ← hadj] at *
      rw [hnone]
    · intro sch hsch
      unfold is_stylist_available
      dsimp only
      rw [if_neg (by rw [hol]; exact Bool.false_ne_true), ← hadj] at *
      rw [hsch]
      rw [decide_eq_true_eq]

/-- C5, witness: schedule Sunday (day 0) 09:00–17:00, no time-off; date 6
is a Sunday, so the instant Sunday 10:00 (`t = 9240`) is available while
Sunday 18:00 (`t = 9720`) is not; with a time-off covering the whole day
the 10:00 instant is unavailable. -/
theorem claim_C5_witness :
    is_stylist_available [⟨"s1", 0, 540, 1020⟩] [] "s1" 9240 = true ∧
    is_stylist_available [⟨"s1", 0, 540, 1020⟩] [] "s1" 9720 = false ∧
    is_stylist_available [⟨"s1", 0, 540, 1020⟩] [⟨"s1", 9180, 9660⟩] "s1"
      9240 = false := by
  have h1 := ((claim_C5 [⟨"s1", 0, 540, 1020⟩] [] "s1" 9240).2
    (by rintro ⟨x, hx, -⟩; cases hx)).2 ⟨"s1", 0, 540, 1020⟩ (by decide)
  have h2 := (claim_C5 [⟨"s1", 0, 540, 1020⟩] [⟨"s1", 9180, 9660⟩] "s1"
    9240).1 ⟨⟨"s1", 9180, 9660⟩, by decide, rfl, by decide, by decide⟩
  refine ⟨h1.mpr (by decide), ?_, h2⟩
  have h3 := ((claim_C5 [⟨"s1", 0, 540, 1020⟩] [] "s1" 9720).2
    (by rintro ⟨x, hx, -⟩; cases hx)).2 ⟨"s1", 0, 540, 1020⟩ (by decide)
  rw [← Bool.not_eq_true]
  intro hb
  have := h3.mp hb
  revert this
  decide

/-! ## Claim C10: store-open check and its null-time precondition -/

/-- C10: under the precondition that every business-hours row with
`is_closed = false` carries non-null `open_time` and `close_time`,
`is_store_open` is total (never the `none` that models the unguarded
`TypeError`), and it returns `some true` iff no closure contains the
instant, the (adjusted) weekday has a row with `is_closed = false`, and the
time of day lies within `[open_time, close_time]`, inclusive. -/
theorem claim_C10 (hours : List BusinessHoursRow) (closures : List ClosureRow)
    (t : Int)
    (hpre : ∀ bh ∈ hours, bh.is_closed = false →
      bh.open_time.isSome ∧ bh.close_time.isSome) :
    (is_store_open hours closures t).isSome ∧
    (is_store_open hours closures t = some true ↔
      ((¬ ∃ cl ∈ closures, cl.start_datetime ≤ t ∧ t ≤ cl.end_datetime) ∧
       ∃ bh, get_business_hours_by_day hours
           (adjustedDay (nativeWeekday (dtDate t))) = some bh ∧
         bh.is_closed = false ∧
         ∃ o c, bh.open_time = some o ∧ bh.close_time = some c ∧
           o ≤ dtTime t ∧ dtTime t ≤ c)) := by
  have hclos_iff : (get_active_closures closures t).isEmpty = false ↔
      ∃ cl ∈ closures, cl.start_datetime ≤ t ∧ t ≤ cl.end_datetime := by
    unfold get_active_closures
    constructor
    · intro hne
      have hne' : closures.filter (fun c => decide (c.start_datetime ≤ t)
          && decide (c.end_datetime ≥ t)) ≠ [] := by
        intro h0
        rw [h0] at hne
        cases hne
      obtain ⟨x, hx⟩ := List.exists_mem_of_ne_nil _ hne'
      obtain ⟨hmem, hcond⟩ := List.mem_filter.mp hx
      simp only [Bool.and_eq_true, decide_eq_true_eq] at hcond
      exact ⟨x, hmem, hcond.1, hcond.2⟩
    · rintro ⟨cl, hmem, h1, h2⟩
      have hin : cl ∈ closures.filter (fun c => decide (c.start_datetime ≤ t)
          && decide (c.end_datetime ≥ t)) := by
        rw [List.mem_filter]
        simp only [Bool.and_eq_true, decide_eq_true_eq]
        exact ⟨hmem, h1, h2⟩
      cases hfil : closures.filter (fun c => decide (c.start_datetime ≤ t)
          && decide (c.end_datetime ≥ t)) with
      | nil => rw [hfil] at hin; cases hin
      | cons a l => rfl
  unfold is_store_open
  by_cases hcl : (get_active_closures closures t).isEmpty = false
  · rw [if_pos hcl]
    refine ⟨rfl, ?_⟩
    constructor
    · intro h; cases h
    · rintro ⟨hno, -⟩
      exact absurd (hclos_iff.mp hcl) hno
  · rw [if_neg hcl]
    have hnoclo : ¬ ∃ cl ∈ closures, cl.start_datetime ≤ t ∧
        t ≤ cl.end_datetime := fun hex => hcl (hclos_iff.mpr hex)
    cases hbh : get_business_hours_by_day hours
        (adjustedDay (nativeWeekday (dtDate t))) with
    | none =>
        dsimp only
        refine ⟨rfl, ?_⟩
        constructor
        · intro h
          injection h with he
          cases he
        · rintro ⟨-, bh, hbh', -⟩
          cases hbh'
    | some bh =>
        dsimp only
        have hmem : bh ∈ hours := by
          unfold get_business_hours_by_day at hbh
          exact List.mem_of_find?_eq_some hbh
        by_cases hic : bh.is_closed = true
        · rw [if_pos hic]
          refine ⟨rfl, ?_⟩
          constructor
          · intro h
            injection h with he
            cases he
          · rintro ⟨-, bh', hbh', hcf, -⟩
            injection hbh' with he
            rw [← he] at hcf
            rw [hic] at hcf
            cases hcf
        · have hicf : bh.is_closed = false := eq_false_of_ne_true hic
          rw [if_neg hic]
          obtain ⟨ho, hc⟩ := hpre bh hmem hicf
          obtain ⟨o, hoe⟩ := Option.isSome_iff_exists.mp ho
          obtain ⟨cc, hce⟩ := Option.isSome_iff_exists.mp hc
          rw [hoe, hce]
          dsimp only
          by_cases hot : o ≤ dtTime t
          · rw [if_pos (decide_eq_true hot)]
            refine ⟨rfl, ?_⟩
            constructor
            · intro h
              injection h with he
              rw [decide_eq_true_eq] at he
              exact ⟨hnoclo, bh, rfl, hicf, o, cc, hoe, hce, hot, he⟩
            · rintro ⟨-, bh', hbh', -, o', c', ho', hc', h1, h2⟩
              injection hbh' with he
              rw [← he] at ho' hc'
              rw [hoe] at ho'
              rw [hce] at hc'
              injection hc' with hec
              rw [← hec] at h2
              rw [decide_eq_true h2]
          · rw [if_neg (fun hd => hot (decide_eq_true_eq.mp hd))]
            refine ⟨rfl, ?_⟩
            constructor
            · intro h
              injection h with he
              cases he
            · rintro ⟨-, bh', hbh', -, o', c', ho', hc', h1, h2⟩
              injection hbh' with he
              rw [← he] at ho'
              rw [hoe] at ho'
              injection ho' with heo
              rw [← heo] at h1
              exact absurd h1 hot

/-- C10, witness: Monday 09:00–17:00 row with non-null times; at Monday
10:00 the store is open, so `is_store_open` is `some` and the
characterization holds. -/
theorem claim_C10_witness :
    (is_store_open [⟨1, some 540, some 1020, false⟩] [] 600).isSome ∧
    is_store_open [⟨1, some 540, some 1020, false⟩] [] 600 = some true := by
  have h := claim_C10 [⟨1, some 540, some 1020, false⟩] [] 600
    (by rintro bh hbh -; simp at hbh; rw [hbh]; exact ⟨rfl, rfl⟩)
  refine ⟨h.1, h.2.mpr ?_⟩
  refine ⟨(by rintro ⟨cl, hcl, -⟩; cases hcl), ⟨1, some 540, some 1020, false⟩,
    (by decide), rfl, 540, 1020, rfl, rfl, (by decide), (by decide)⟩

/-! ## Claim C6: next store opening time -/

theorem get_active_closures_isEmpty_iff (closures : List ClosureRow)
    (t : Int) :
    (get_active_closures closures t).isEmpty = true ↔
      ¬ ∃ cl ∈ closures, cl.start_datetime ≤ t ∧ t ≤ cl.end_datetime := by
  unfold get_active_closures
  rw [List.isEmpty_iff, List.filter_eq_nil]
  constructor
  · rintro h ⟨cl, hm, h1, h2⟩
    exact h cl hm (by simp only [Bool.and_eq_true, decide_eq_true_eq]
                      exact ⟨h1, h2⟩)
  · intro h cl hm hp
    simp only [Bool.and_eq_true, decide_eq_true_eq] at hp
    exact h ⟨cl, hm, hp.1, hp.2⟩

/-- The qualification predicate of the amended C6: `t` is the opening
instant of day `from + i` — its weekday's business-hours row exists, is not
closed, and has its `open_time` set, `t` is `open_time` on that date, no
closure contains `t`, and `t` is strictly after `from`. -/
def NextOpenSpec (hours : List BusinessHoursRow) (closures : List ClosureRow)
    (fromT : Int) (i : Nat) (t : Int) : Prop :=
  ∃ bh, get_business_hours_by_day hours
      (adjustedDay (nativeWeekday (dtDate fromT + (i : Int)))) = some bh ∧
    bh.is_closed = false ∧
    ∃ o, bh.open_time = some o ∧
      t = combineDT (dtDate fromT + (i : Int)) o ∧
      (¬ ∃ cl ∈ closures, cl.start_datetime ≤ t ∧ t ≤ cl.end_datetime) ∧
      fromT < t

theorem nextOpenCandidate_some_iff (hours : List BusinessHoursRow)
    (closures : List ClosureRow) (fromT : Int) (i : Nat) (t : Int) :
    nextOpenCandidate hours closures fromT i = some t ↔
      NextOpenSpec hours closures fromT i t := by
  unfold nextOpenCandidate NextOpenSpec
  dsimp only
  cases hbh : get_business_hours_by_day hours
      (adjustedDay (nativeWeekday (dtDate fromT + (i : Int)))) with
  | none =>
      dsimp only
      constructor
      · intro h; cases h
      · rintro ⟨bh, hbh', -⟩; cases hbh'
  | some bh =>
      dsimp only
      by_cases hcond : bh.is_closed = false ∧ bh.open_time.isSome = true
      · rw [if_pos hcond]
        obtain ⟨o, hoe⟩ := Option.isSome_iff_exists.mp hcond.2
        rw [hoe]
        simp only [Option.getD_some]
        by_cases hc2 : (get_active_closures closures
            (combineDT (dtDate fromT + (i : Int)) o)).isEmpty = true ∧
            combineDT (dtDate fromT + (i : Int)) o > fromT
        · rw [if_pos hc2]
          constructor
          · intro h
            injection h with he
            refine ⟨bh, rfl, hcond.1, o, hoe, he.symm, ?_, ?_⟩
            · rw [← he]
              exact (get_active_closures_isEmpty_iff _ _).mp hc2.1
            · rw [← he]
              exact hc2.2
          · rintro ⟨bh', hbh', -, o', ho', ht, -, -⟩
            injection hbh' with he
            rw [← he] at ho'
            rw [hoe] at ho'
            injection ho' with heo
            rw [ht, ← heo]
        · rw [if_neg hc2]
          constructor
          · intro h; cases h
          · rintro ⟨bh', hbh', -, o', ho', ht, hnc, hgt⟩
            injection hbh' with he
            rw [← he] at ho'
            rw [hoe] at ho'
            injection ho' with heo
            rw [← heo] at ht
            exact absurd ⟨(get_active_closures_isEmpty_iff _ _).mpr
              (ht ▸ hnc), ht ▸ hgt⟩ hc2
      · rw [if_neg hcond]
        constructor
        · intro h; cases h
        · rintro ⟨bh', hbh', hcf, o', ho', -⟩
          injection hbh' with he
          rw [← he] at hcf ho'
          exact absurd ⟨hcf, by rw [ho']; rfl⟩ hcond

theorem nextOpenScan_eq_none_iff (hours : List BusinessHoursRow)
    (closures : List ClosureRow) (fromT : Int) (l : List Nat) :
    nextOpenScan hours closures fromT l = none ↔
      ∀ i ∈ l, nextOpenCandidate hours closures fromT i = none := by
  induction l with
  | nil => simp [nextOpenScan]
  | cons i rest ih =>
      unfold nextOpenScan
      cases hc : nextOpenCandidate hours closures fromT i with
      | some u => simp [hc]
      | none => simp [hc, ih]

theorem nextOpenScan_eq_some_iff (hours : List BusinessHoursRow)
    (closures : List ClosureRow) (fromT : Int) (l : List Nat) (t : Int) :
    nextOpenScan hours closures fromT l = some t ↔
      ∃ pre k post, l = pre ++ k :: post ∧
        (∀ j ∈ pre, nextOpenCandidate hours closures fromT j = none) ∧
        nextOpenCandidate hours closures fromT k = some t := by
  induction l with
  | nil =>
      constructor
      · intro h
        simp only [nextOpenScan] at h
        exact Option.noConfusion h
      · rintro ⟨pre, k, post, hl, -, -⟩
        cases pre with
        | nil => cases hl
        | cons a l => cases hl
  | cons i rest ih =>
      unfold nextOpenScan
      cases hc : nextOpenCandidate hours closures fromT i with
      | some u =>
          dsimp only
          constructor
          · intro h
            injection h with he
            exact ⟨[], i, rest, rfl, (by intro j hj; cases hj),
              (by rw [hc, he])⟩
          · rintro ⟨pre, k, post, hl, hpre, hk⟩
            cases pre with
            | nil =>
                simp only [List.nil_append, List.cons.injEq] at hl
                rw [← hl.1] at hk
                rw [hc] at hk
                exact hk
            | cons p pre' =>
                simp only [List.cons_append, List.cons.injEq] at hl
                have hpn := hpre p (List.mem_cons_self p pre')
                rw [← hl.1] at hpn
                rw [hc] at hpn
                cases hpn
      | none =>
          dsimp only
          rw [ih]
          constructor
          · rintro ⟨pre, k, post, hl, hpre, hk⟩
            refine ⟨i :: pre, k, post, (by rw [List.cons_append, hl]), ?_, hk⟩
            intro j hj
            rcases List.mem_cons.mp hj with h | h
            · rw [h]; exact hc
            · exact hpre j h
          · rintro ⟨pre, k, post, hl, hpre, hk⟩
            cases pre with
            | nil =>
                simp only [List.nil_append, List.cons.injEq] at hl
                rw [← hl.1] at hk
                rw [hc] at hk
                cases hk
            | cons p pre' =>
                simp only [List.cons_append, List.cons.injEq] at hl
                exact ⟨pre', k, post, hl.2, fun j hj =>
                  hpre j (List.mem_cons_of_mem p hj), hk⟩

/-- Decomposing `List.range 7 = pre ++ k :: post`: the prefix is
`List.range k`. -/
theorem range_decomp (n : Nat) (pre post : List Nat) (k : Nat)
    (h : List.range n = pre ++ k :: post) :
    k < n ∧ pre = List.range k := by
  have hlen : pre.length + (1 + post.length) = n := by
    have := congrArg List.length h
    simp only [List.length_range, List.length_append, List.length_cons] at this
    omega
  have hklen : k = pre.length := by
    have hidx : (pre ++ k :: post)[pre.length]? = some k := by
      rw [List.getElem?_append_right (le_refl pre.length)]
      simp
    rw [← h] at hidx
    rw [List.getElem?_range (by omega)] at hidx
    injection hidx with he
    exact he.symm
  constructor
  · omega
  · have htake : (pre ++ k :: post).take pre.length = pre := List.take_left _ _
    rw [← h] at htake
    rw [List.take_range] at htake
    rw [htake.symm, hklen]
    congr 1
    omega

/-- C6, counterexample: a single Monday 09:00–17:00 row, no closures, and
`from` = Monday 10:00 (minute 600 of day 0, a Monday).  Minute 601 is
strictly after `from`, within open hours and outside every closure
(`is_store_open` says so), yet `get_next_open_time` returns `none`: the
scan only ever considers each day's opening instant, and Monday's (09:00)
is not after `from`. -/
theorem claim_C6_counterexample :
    get_next_open_time [⟨1, some 540, some 1020, false⟩] [] 600 = none ∧
    is_store_open [⟨1, some 540, some 1020, false⟩] [] 601 = some true ∧
    (600 : Int) < 601 := by
  refine ⟨by decide, by decide, by decide⟩

/-- C6 (amended): `getNextOpenTime(from)` examines the 7 days starting at
`from`'s date and considers, for each, only that day's opening instant
(`open_time` on that date); it returns the first such instant whose row
exists with `is_closed = false` and non-null `open_time`, that no closure
contains, and that is strictly after `from` — and `none` when no day's
opening instant qualifies.  Mid-day instants (e.g. when `from` falls during
open hours, or when a closure ends mid-way through an open day) are never
returned. -/
theorem claim_C6_amended (hours : List BusinessHoursRow)
    (closures : List ClosureRow) (fromT : Int) :
    (∀ t, get_next_open_time hours closures fromT = some t ↔
      ∃ i : Nat, i < 7 ∧ NextOpenSpec hours closures fromT i t ∧
        ∀ j : Nat, j < i → ∀ u, ¬ NextOpenSpec hours closures fromT j u) ∧
    (get_next_open_time hours closures fromT = none ↔
      ∀ i : Nat, i < 7 → ∀ t, ¬ NextOpenSpec hours closures fromT i t) := by
  constructor
  · intro t
    unfold get_next_open_time
    rw [nextOpenScan_eq_some_iff]
    constructor
    · rintro ⟨pre, k, post, hl, hpre, hk⟩
      obtain ⟨hk7, hprer⟩ := range_decomp 7 pre post k hl
      refine ⟨k, hk7, (nextOpenCandidate_some_iff _ _ _ _ _).mp hk, ?_⟩
      intro j hj u hspec
      have hjn : nextOpenCandidate hours closures fromT j = none := by
        apply hpre
        rw [hprer]
        exact List.mem_range.mpr hj
      rw [(nextOpenCandidate_some_iff hours closures fromT j u).mpr hspec]
        at hjn
      cases hjn
    · rintro ⟨i, hi7, hspec, hmin⟩
      refine ⟨List.range i, i, (List.range 7).drop (i + 1), ?_, ?_, ?_⟩
      · have hsplit := List.take_append_drop i (List.range 7)
        rw [List.take_range] at hsplit
        have hmin7 : min i 7 = i := by omega
        rw [hmin7] at hsplit
        have hdrop : (List.range 7).drop i =
            i :: (List.range 7).drop (i + 1) := by
          rw [List.drop_eq_getElem_cons (by simpa using hi7)]
          congr 1
          simp
        conv_lhs => rw [← hsplit]
        rw [hdrop]
      · intro j hj
        have hjlt : j < i := List.mem_range.mp hj
        rw [Option.eq_none_iff_forall_not_mem]
        intro u hu
        rw [Option.mem_def] at hu
        exact hmin j hjlt u ((nextOpenCandidate_some_iff _ _ _ _ _).mp hu)
      · exact (nextOpenCandidate_some_iff _ _ _ _ _).mpr hspec
  · unfold get_next_open_time
    rw [nextOpenScan_eq_none_iff]
    constructor
    · intro h i hi7 t hspec
      have hin := h i (List.mem_range.mpr hi7)
      rw [(nextOpenCandidate_some_iff hours closures fromT i t).mpr hspec]
        at hin
      cases hin
    · intro h i hi
      rw [Option.eq_none_iff_forall_not_mem]
      intro u hu
      rw [Option.mem_def] at hu
      exact h i (List.mem_range.mp hi) u
        ((nextOpenCandidate_some_iff _ _ _ _ _).mp hu)

/-! ## updateFirst / find? bookkeeping lemmas -/

theorem find?_updateFirst {α : Type} (p : α → Bool) (f : α → α)
    (hpf : ∀ x, p (f x) = p x) (l : List α) :
    (updateFirst p f l).find? p = (l.find? p).map f := by
  induction l with
  | nil => rfl
  | cons x xs ih =>
      unfold updateFirst
      by_cases hp : p x = true
      · rw [if_pos hp]
        rw [List.find?_cons_of_pos _ (by rw [hpf]; exact hp)]
        rw [List.find?_cons_of_pos _ hp]
        rfl
      · rw [if_neg hp]
        rw [List.find?_cons_of_neg _ hp]
        rw [List.find?_cons_of_neg _ hp]
        exact ih

theorem find?_updateFirst_disjoint {α : Type} (p q : α → Bool) (f : α → α)
    (hdisj : ∀ x, p x = true → q x = false ∧ q (f x) = false) (l : List α) :
    (updateFirst p f l).find? q = l.find? q := by
  induction l with
  | nil => rfl
  | cons x xs ih =>
      unfold updateFirst
      by_cases hp : p x = true
      · rw [if_pos hp]
        obtain ⟨hq1, hq2⟩ := hdisj x hp
        rw [List.find?_cons_of_neg _ (by rw [hq2]; exact Bool.false_ne_true)]
        rw [List.find?_cons_of_neg _ (by rw [hq1]; exact Bool.false_ne_true)]
      · rw [if_neg hp]
        by_cases hq : q x = true
        · rw [List.find?_cons_of_pos _ hq, List.find?_cons_of_pos _ hq]
        · rw [List.find?_cons_of_neg _ hq, List.find?_cons_of_neg _ hq]
          exact ih

theorem mem_updateFirst {α : Type} (p : α → Bool) (f : α → α) (l : List α)
    (x : α) (hx : x ∈ updateFirst p f l) :
    x ∈ l ∨ ∃ y, l.find? p = some y ∧ x = f y := by
  induction l with
  | nil => cases hx
  | cons a as ih =>
      unfold updateFirst at hx
      by_cases hp : p a = true
      · rw [if_pos hp] at hx
        rcases List.mem_cons.mp hx with h | h
        · exact Or.inr ⟨a, List.find?_cons_of_pos _ hp, h⟩
        · exact Or.inl (List.mem_cons_of_mem a h)
      · rw [if_neg hp] at hx
        rcases List.mem_cons.mp hx with h | h
        · exact Or.inl (h ▸ List.mem_cons_self a as)
        · rcases ih h with h2 | ⟨y, hy, hxy⟩
          · exact Or.inl (List.mem_cons_of_mem a h2)
          · exact Or.inr ⟨y, by rw [List.find?_cons_of_neg _ hp]; exact hy,
              hxy⟩

theorem get_coupon_by_id_increment (db : List Coupon) (k : String) :
    get_coupon_by_id (increment_usage_count db k) k =
      (get_coupon_by_id db k).map
        (fun c => { c with used_count := c.used_count + 1 }) := by
  unfold increment_usage_count
  cases h : get_coupon_by_id db k with
  | none => rw [h]; rfl
  | some c =>
      dsimp only
      unfold get_coupon_by_id at h ⊢
      rw [find?_updateFirst (fun c => c.coupon_id == k)
        (fun c => { c with used_count := c.used_count + 1 })
        (fun x => rfl) db, h]

theorem get_coupon_by_id_decrement (db : List Coupon) (k : String) :
    get_coupon_by_id (decrement_usage_count db k) k =
      (get_coupon_by_id db k).map
        (fun c => if c.used_count > 0 then
          { c with used_count := c.used_count - 1 } else c) := by
  unfold decrement_usage_count
  cases h : get_coupon_by_id db k with
  | none => rw [h]; rfl
  | some c =>
      dsimp only
      by_cases hcnt : c.used_count > 0
      · rw [if_pos hcnt]
        unfold get_coupon_by_id at h ⊢
        rw [find?_updateFirst (fun c => c.coupon_id == k)
          (fun c => { c with used_count := c.used_count - 1 })
          (fun x => rfl) db, h]
        simp only [Option.map_some']
        rw [if_pos hcnt]
      · rw [if_neg hcnt]
        rw [h]
        simp only [Option.map_some']
        rw [if_neg hcnt]

theorem get_coupon_by_id_increment_ne (db : List Coupon) (k k' : String)
    (hne : k ≠ k') :
    get_coupon_by_id (increment_usage_count db k) k' =
      get_coupon_by_id db k' := by
  unfold increment_usage_count
  cases hf : get_coupon_by_id db k with
  | none => rfl
  | some c =>
      dsimp only
      unfold get_coupon_by_id
      apply find?_updateFirst_disjoint
      intro x hp
      rw [beq_iff_eq] at hp
      constructor
      · rw [beq_eq_false_iff_ne, hp]
        exact hne
      · rw [beq_eq_false_iff_ne]
        show x.coupon_id ≠ k'
        rw [hp]
        exact hne

theorem get_coupon_by_id_decrement_ne (db : List Coupon) (k k' : String)
    (hne : k ≠ k') :
    get_coupon_by_id (decrement_usage_count db k) k' =
      get_coupon_by_id db k' := by
  unfold decrement_usage_count
  cases hf : get_coupon_by_id db k with
  | none => rfl
  | some c =>
      dsimp only
      by_cases hcnt : c.used_count > 0
      · rw [if_pos hcnt]
        unfold get_coupon_by_id
        apply find?_updateFirst_disjoint
        intro x hp
        rw [beq_iff_eq] at hp
        constructor
        · rw [beq_eq_false_iff_ne, hp]
          exact hne
        · rw [beq_eq_false_iff_ne]
          show x.coupon_id ≠ k'
          rw [hp]
          exact hne
      · rw [if_neg hcnt]

theorem get_coupon_by_id_of_mem (db : List Coupon) (c : Coupon)
    (hmem : c ∈ db) (hnd : (db.map (fun x => x.coupon_id)).Nodup) :
    get_coupon_by_id db c.coupon_id = some c := by
  induction db with
  | nil => cases hmem
  | cons a as ih =>
      simp only [List.map_cons, List.nodup_cons] at hnd
      rcases List.mem_cons.mp hmem with h | h
      · rw [← h]
        unfold get_coupon_by_id
        rw [List.find?_cons_of_pos _ (by rw [beq_iff_eq])]
      · have hne : ¬ (a.coupon_id == c.coupon_id) = true := by
          rw [beq_iff_eq]
          intro he
          exact hnd.1 (he ▸ List.mem_map_of_mem _ h)
        unfold get_coupon_by_id at ih ⊢
        have hstep : List.find? (fun x => x.coupon_id == c.coupon_id)
            (a :: as) = List.find? (fun x => x.coupon_id == c.coupon_id) as :=
          List.find?_cons_of_neg as hne
        rw [hstep]
        exact ih h hnd.2

/-! ## Claim C9: line-item mutations and order totals -/

theorem update_order_amounts_spec (s : SysState) (oid : String) :
    (update_order_amounts s oid).details = s.details ∧
    (∀ o2, get_order_by_id (update_order_amounts s oid) oid = some o2 →
      o2.total_amount = ((s.details.filter (fun d => d.order_id == oid)).map
        (fun d => d.total_price)).sum ∧
      o2.final_amount = o2.total_amount - o2.discount_amount ∧
      ∃ o, get_order_by_id s oid = some o ∧
        o2.discount_amount = o.discount_amount) := by
  unfold update_order_amounts
  cases h : get_order_by_id s oid with
  | none =>
      refine ⟨rfl, ?_⟩
      intro o2 h2
      rw [h] at h2
      cases h2
  | some o =>
      dsimp only
      refine ⟨rfl, ?_⟩
      intro o2 h2
      unfold get_order_by_id at h h2
      rw [find?_updateFirst (fun x => x.order_id == oid)
        (fun o => { o with
          total_amount := ((s.details.filter (fun d => d.order_id == oid)).map
            (fun d => d.total_price)).sum
          final_amount := ((s.details.filter (fun d => d.order_id == oid)).map
            (fun d => d.total_price)).sum - o.discount_amount })
        (fun x => rfl) s.orders, h] at h2
      injection h2 with he
      rw [← he]
      exact ⟨rfl, rfl, o, rfl, rfl⟩

/-- An order with a frozen 800 discount on a 1000 subtotal and a single
line item, for exercising the line-item mutations. -/
def exampleOrderState : SysState :=
  ⟨[], [⟨"o1", "u1", some "c1", 1000, 800, 200, "pending"⟩],
   [⟨"d1", "o1", "p1", 1, 1000, 1000⟩]⟩

/-- C9: every line-item mutation (add, update, delete) recomputes
`total_amount` as the sum of `total_price` over the order's remaining rows
and sets `final_amount = total_amount - discount_amount`, while
`discount_amount` itself is left unchanged; consequently (last conjunct)
deleting the only 1000-unit item from an order carrying a frozen 800
discount leaves `discount_amount = 800 > 0 = total_amount`, with
`final_amount = -800`. -/
theorem claim_C9 (s : SysState) :
    (∀ oid d o2, get_order_by_id (add_detail_to_order s oid d) oid
        = some o2 →
      o2.total_amount = (((add_detail_to_order s oid d).details.filter
        (fun x => x.order_id == oid)).map (fun x => x.total_price)).sum ∧
      o2.final_amount = o2.total_amount - o2.discount_amount ∧
      (∀ o, get_order_by_id s oid = some o →
        o2.discount_amount = o.discount_amount)) ∧
    (∀ did u d0 o2,
      s.details.find? (fun x => x.order_detail_id == did) = some d0 →
      get_order_by_id (update_order_detail s did u) d0.order_id = some o2 →
      o2.total_amount = (((update_order_detail s did u).details.filter
        (fun x => x.order_id == d0.order_id)).map
          (fun x => x.total_price)).sum ∧
      o2.final_amount = o2.total_amount - o2.discount_amount ∧
      (∀ o, get_order_by_id s d0.order_id = some o →
        o2.discount_amount = o.discount_amount)) ∧
    (∀ did d0 o2,
      s.details.find? (fun x => x.order_detail_id == did) = some d0 →
      get_order_by_id (delete_order_detail s did) d0.order_id = some o2 →
      o2.total_amount = (((delete_order_detail s did).details.filter
        (fun x => x.order_id == d0.order_id)).map
          (fun x => x.total_price)).sum ∧
      o2.final_amount = o2.total_amount - o2.discount_amount ∧
      (∀ o, get_order_by_id s d0.order_id = some o →
        o2.discount_amount = o.discount_amount)) ∧
    ((delete_order_detail exampleOrderState "d1").orders.map
      (fun o => (o.total_amount, o.discount_amount, o.final_amount))
        = [(0, 800, -800)] ∧ ¬ ((800 : Int) ≤ 0)) := by
  refine ⟨?_, ?_, ?_, by decide⟩
  · intro oid d o2 h2
    unfold add_detail_to_order at h2 ⊢
    obtain ⟨hdet, hspec⟩ := update_order_amounts_spec
      { s with details := s.details ++ [⟨d.order_detail_id, oid, d.product_id,
        d.quantity, d.price_per_item, d.quantity * d.price_per_item⟩] } oid
    obtain ⟨ht, hf, o, ho, hd⟩ := hspec o2 h2
    refine ⟨by rw [hdet]; exact ht, hf, ?_⟩
    intro o' ho'
    have ho2 : get_order_by_id s oid = some o := ho
    rw [ho2] at ho'
    injection ho' with he
    rw [hd, he]
  · intro did u d0 o2 hd0 h2
    unfold update_order_detail at h2 ⊢
    rw [hd0] at h2 ⊢
    dsimp only at h2 ⊢
    obtain ⟨hdet, hspec⟩ := update_order_amounts_spec _ d0.order_id
    obtain ⟨ht, hf, o, ho, hd⟩ := hspec o2 h2
    refine ⟨by rw [hdet]; exact ht, hf, ?_⟩
    intro o' ho'
    have ho2 : get_order_by_id s d0.order_id = some o := ho
    rw [ho2] at ho'
    injection ho' with he
    rw [hd, he]
  · intro did d0 o2 hd0 h2
    unfold delete_order_detail at h2 ⊢
    rw [hd0] at h2 ⊢
    dsimp only at h2 ⊢
    obtain ⟨hdet, hspec⟩ := update_order_amounts_spec _ d0.order_id
    obtain ⟨ht, hf, o, ho, hd⟩ := hspec o2 h2
    refine ⟨by rw [hdet]; exact ht, hf, ?_⟩
    intro o' ho'
    have ho2 : get_order_by_id s d0.order_id = some o := ho
    rw [ho2] at ho'
    injection ho' with he
    rw [hd, he]

theorem claim_C9_witness :
    get_order_by_id (add_detail_to_order exampleOrderState "o1"
        ⟨"d2", "p2", 2, 50⟩) "o1" = some ⟨"o1", "u1", some "c1", 1100, 800,
      300, "pending"⟩ ∧
    (1100 : Int) = (((add_detail_to_order exampleOrderState "o1"
        ⟨"d2", "p2", 2, 50⟩).details.filter (fun x => x.order_id == "o1")).map
        (fun x => x.total_price)).sum ∧
    (300 : Int) = 1100 - 800 ∧ (800 : Int) = 800 := by
  have h := (claim_C9 exampleOrderState).1 "o1" ⟨"d2", "p2", 2, 50⟩
    ⟨"o1", "u1", some "c1", 1100, 800, 300, "pending"⟩ (by decide)
  exact ⟨by decide, h.1, h.2.1, h.2.2 ⟨"o1", "u1", some "c1", 1000, 800, 200,
    "pending"⟩ (by decide)⟩

/-- Shape of `remove_coupon_from_order` when the order exists and carries
a (truthy) coupon id. -/
theorem remove_coupon_spec (s' : SysState) (oid : String) (o1 : OrderRow)
    (h : get_order_by_id s' oid = some o1)
    (htr : optStrTruthy o1.coupon_id = true) :
    remove_coupon_from_order s' oid =
      { s' with
        coupons := decrement_usage_count s'.coupons (o1.coupon_id.getD "")
        orders := updateFirst (fun x => x.order_id == oid)
          (fun x => { x with coupon_id := (none : Option String)
                             discount_amount := (0 : Int)
                             final_amount := x.total_amount })
          s'.orders } := by
  unfold remove_coupon_from_order
  rw [h]
  dsimp only
  rw [if_pos htr]

/-! ## Claim C7: apply-then-remove coupon round-trip -/

/-- A coupon already applied once, and the order carrying it. -/
def couponReuse : Coupon :=
  { coupon_id := "c1", code := "A", name := "re", discount_type := "fixed"
    discount_value := 100, min_order_amount := none
    max_discount_amount := none, usage_limit := none, used_count := 1
    is_active := true, start_at := none, end_at := none }

def stateReuse : SysState :=
  ⟨[couponReuse], [⟨"o1", "u1", some "c1", 1000, 100, 900, "pending"⟩], []⟩

/-- C7, counterexample: re-applying to an order the very coupon it already
carries (`used_count = 1` from that earlier application) succeeds, and the
subsequent removal leaves `used_count = 0`, not its pre-apply value `1`:
the apply first decrements the old (same) coupon, then increments it, and
the removal decrements it once more. -/
theorem claim_C7_counterexample :
    couponReuse.used_count = 1 ∧
    ((apply_coupon_to_order stateReuse 0 "o1" "A").map (fun s1 =>
      (remove_coupon_from_order s1 "o1").coupons.map
        (fun x => x.used_count))) = some [0] := by
  decide

/-- C7 (amended): when a coupon application succeeds *and the applied
coupon differs from the one the order currently carries*, applying and then
removing round-trips: the order ends with `coupon_id` cleared,
`discount_amount = 0` and `final_amount = total_amount` (the original
total), and the applied coupon's `used_count` returns to its pre-apply
value.  The well-formedness hypotheses say coupon ids are pairwise
distinct, the applied coupon's id is a nonempty string, and its usage
counter is nonnegative. -/
theorem claim_C7_amended (s : SysState) (now : Int) (oid code : String)
    (c : Coupon) (o : OrderRow) (s1 : SysState)
    (hord : get_order_by_id s oid = some o)
    (hc : get_coupon_by_code s.coupons code = some c)
    (happly : apply_coupon_to_order s now oid code = some s1)
    (hdiff : o.coupon_id ≠ some c.coupon_id)
    (hnd : (s.coupons.map (fun x => x.coupon_id)).Nodup)
    (hcid : c.coupon_id ≠ "") (hcnt : 0 ≤ c.used_count) :
    (∃ o2, get_order_by_id (remove_coupon_from_order s1 oid) oid = some o2 ∧
      o2.coupon_id = none ∧ o2.discount_amount = 0 ∧
      o2.total_amount = o.total_amount ∧
      o2.final_amount = o2.total_amount) ∧
    (get_coupon_by_id (remove_coupon_from_order s1 oid).coupons
      c.coupon_id).map (fun x => x.used_count) = some c.used_count := by
  unfold apply_coupon_to_order at happly
  rw [hord] at happly
  dsimp only at happly
  by_cases hvalid :
      (validate_coupon s.coupons now code o.total_amount).is_valid = true
  case neg =>
      exfalso
      rw [if_pos (eq_false_of_ne_true hvalid)] at happly
      cases happly
  rw [if_neg (by intro hf; rw [hf] at hvalid; simp at hvalid)] at happly
  rw [validate_coupon_success s.coupons now code o.total_amount c hc hvalid]
    at happly
  dsimp only at happly
  injection happly with hs1
  have hco : s1.coupons = increment_usage_count
      (if optStrTruthy o.coupon_id = true then
        decrement_usage_count s.coupons (o.coupon_id.getD "")
      else s.coupons) c.coupon_id := by
    rw [← hs1]
    rfl
  have hor : s1.orders = updateFirst (fun x => x.order_id == oid)
      (fun x => { x with coupon_id := some c.coupon_id
                         discount_amount := calculate_discount c o.total_amount
                         final_amount := x.total_amount -
                           calculate_discount c o.total_amount })
      s.orders := by
    rw [← hs1]
  have hmemc : c ∈ s.coupons := List.mem_of_find?_eq_some hc
  have hgetc : get_coupon_by_id s.coupons c.coupon_id = some c :=
    get_coupon_by_id_of_mem s.coupons c hmemc hnd
  have hC1 : get_coupon_by_id
      (if optStrTruthy o.coupon_id = true then
        decrement_usage_count s.coupons (o.coupon_id.getD "")
      else s.coupons) c.coupon_id = some c := by
    by_cases hold : optStrTruthy o.coupon_id = true
    · rw [if_pos hold]
      cases hoc : o.coupon_id with
      | none =>
          rw [hoc] at hold
          simp [optStrTruthy] at hold
      | some old =>
          have holdne : old ≠ c.coupon_id := by
            intro he
            exact hdiff (by rw [hoc, he])
          simp only [Option.getD_some]
          exact (get_coupon_by_id_decrement_ne s.coupons old c.coupon_id
            holdne).trans hgetc
    · rw [if_neg hold]
      exact hgetc
  have hC2 : get_coupon_by_id s1.coupons c.coupon_id =
      some { c with used_count := c.used_count + 1 } := by
    rw [hco, get_coupon_by_id_increment, hC1]
    rfl
  have ho1 := find?_updateFirst (fun x => x.order_id == oid)
    (fun x => { x with coupon_id := some c.coupon_id
                       discount_amount := calculate_discount c o.total_amount
                       final_amount := x.total_amount -
                         calculate_discount c o.total_amount })
    (fun x => rfl) s.orders
  rw [show s.orders.find? (fun x => x.order_id == oid) = some o from hord]
    at ho1
  have hord1 : get_order_by_id s1 oid = some
      { o with coupon_id := some c.coupon_id
               discount_amount := calculate_discount c o.total_amount
               final_amount := o.total_amount -
                 calculate_discount c o.total_amount } := by
    unfold get_order_by_id
    rw [hor]
    exact ho1
  have htr : optStrTruthy (some c.coupon_id) = true := by
    unfold optStrTruthy
    rw [decide_eq_true_eq]
    exact hcid
  rw [remove_coupon_spec s1 oid _ hord1 htr]
  dsimp only
  simp only [Option.getD_some]
  constructor
  · have ho2 := find?_updateFirst (fun x => x.order_id == oid)
      (fun x => { x with coupon_id := (none : Option String)
                         discount_amount := (0 : Int)
                         final_amount := x.total_amount })
      (fun x => rfl) s1.orders
    rw [show s1.orders.find? (fun x => x.order_id == oid) = some _
      from hord1] at ho2
    exact ⟨_, ho2, rfl, rfl, rfl, rfl⟩
  · rw [get_coupon_by_id_decrement, hC2]
    simp only [Option.map_some']
    rw [if_pos (by omega)]
    simp only [Option.map_some', Option.some.injEq]
    omega

/-- A fresh coupon (used three times) and an order without a coupon. -/
def couponW : Coupon :=
  { coupon_id := "c2", code := "B", name := "w", discount_type := "fixed"
    discount_value := 100, min_order_amount := none
    max_discount_amount := none, usage_limit := none, used_count := 3
    is_active := true, start_at := none, end_at := none }

def stateW : SysState :=
  ⟨[couponW], [⟨"o1", "u1", none, 1000, 0, 1000, "pending"⟩], []⟩

def stateW1 : SysState :=
  ⟨[{ couponW with used_count := 4 }],
   [⟨"o1", "u1", some "c2", 1000, 100, 900, "pending"⟩], []⟩

theorem claim_C7_witness :
    (∃ o2, get_order_by_id (remove_coupon_from_order stateW1 "o1") "o1"
        = some o2 ∧
      o2.coupon_id = none ∧ o2.discount_amount = 0 ∧
      o2.total_amount = 1000 ∧ o2.final_amount = o2.total_amount) ∧
    (get_coupon_by_id (remove_coupon_from_order stateW1 "o1").coupons
      "c2").map (fun x => x.used_count) = some 3 := by
  have h := claim_C7_amended stateW 0 "o1" "B" couponW
    ⟨"o1", "u1", none, 1000, 0, 1000, "pending"⟩ stateW1
    (by decide) (by decide) (by decide) (by decide) (by decide) (by decide)
    (by decide)
  exact h

/-! ## Claim C8: usage-count invariants across engine operations -/

/-- `used_count` respects a set positive `usage_limit`. -/
def UsageWithinLimit (c : Coupon) : Prop :=
  ∀ l, c.usage_limit = some l → 0 < l → c.used_count ≤ l

/-- An unlimited coupon incremented twice, then updated to a usage limit
of 1. -/
def couponNL : Coupon :=
  { coupon_id := "c3", code := "NL", name := "nl", discount_type := "fixed"
    discount_value := 100, min_order_amount := none
    max_discount_amount := none, usage_limit := none, used_count := 0
    is_active := true, start_at := none, end_at := none }

def updLimit1 : CouponUpdateData :=
  ⟨none, none, none, none, none, some (some 1), none, none, none⟩

/-- C8, counterexample: two bare usage increments followed by a coupon
update that sets `usage_limit := 1` (each a listed engine operation, and the
update passes the schema's `usage_limit ≥ 1`) leave `used_count = 2 >
1 = usage_limit`, violating the claimed invariant. -/
theorem claim_C8_counterexample :
    ((runOps ⟨[couponNL], [], []⟩ [.incUsage "c3", .incUsage "c3",
        .updateCoupon "c3" updLimit1]).coupons.map
      (fun x => (x.used_count, x.usage_limit))) = [(2, some 1)] ∧
    ¬ ((2 : Int) ≤ 1) := by
  decide

theorem nonneg_increment (db : List Coupon) (k : String)
    (h : ∀ x ∈ db, 0 ≤ x.used_count) :
    ∀ x ∈ increment_usage_count db k, 0 ≤ x.used_count := by
  unfold increment_usage_count
  cases hf : get_coupon_by_id db k with
  | none => exact h
  | some c =>
      dsimp only
      intro x hx
      rcases mem_updateFirst _ _ _ _ hx with hm | ⟨y, hy, rfl⟩
      · exact h x hm
      · have hy0 := h y (List.mem_of_find?_eq_some hy)
        show 0 ≤ y.used_count + 1
        omega

theorem nonneg_decrement (db : List Coupon) (k : String)
    (h : ∀ x ∈ db, 0 ≤ x.used_count) :
    ∀ x ∈ decrement_usage_count db k, 0 ≤ x.used_count := by
  unfold decrement_usage_count
  cases hf : get_coupon_by_id db k with
  | none => exact h
  | some c =>
      dsimp only
      by_cases hcnt : c.used_count > 0
      · rw [if_pos hcnt]
        intro x hx
        rcases mem_updateFirst _ _ _ _ hx with hm | ⟨y, hy, rfl⟩
        · exact h x hm
        · unfold get_coupon_by_id at hf
          rw [hf] at hy
          injection hy with he
          show 0 ≤ y.used_count - 1
          rw [← he]
          omega
      · rw [if_neg hcnt]
        exact h

theorem coupons_update_order_amounts (s : SysState) (oid : String) :
    (update_order_amounts s oid).coupons = s.coupons := by
  unfold update_order_amounts
  cases h : get_order_by_id s oid <;> rfl

theorem coupons_add_detail (s : SysState) (oid : String) (d : NewDetail) :
    (add_detail_to_order s oid d).coupons = s.coupons := by
  unfold add_detail_to_order
  rw [coupons_update_order_amounts]

theorem coupons_update_detail (s : SysState) (did : String)
    (u : OrderDetailUpdateData) :
    (update_order_detail s did u).coupons = s.coupons := by
  unfold update_order_detail
  cases h : s.details.find? (fun x => x.order_detail_id == did) with
  | none => rfl
  | some d0 =>
      dsimp only
      rw [coupons_update_order_amounts]

theorem coupons_delete_detail (s : SysState) (did : String) :
    (delete_order_detail s did).coupons = s.coupons := by
  unfold delete_order_detail
  cases h : s.details.find? (fun x => x.order_detail_id == did) with
  | none => rfl
  | some d0 =>
      dsimp only
      rw [coupons_update_order_amounts]

theorem nonneg_apply_getD (s : SysState) (now : Int) (oid code : String)
    (h : ∀ x ∈ s.coupons, 0 ≤ x.used_count) :
    ∀ x ∈ ((apply_coupon_to_order s now oid code).getD s).coupons,
      0 ≤ x.used_count := by
  unfold apply_coupon_to_order
  cases ho : get_order_by_id s oid with
  | none => exact h
  | some o =>
      dsimp only
      by_cases hv :
          (validate_coupon s.coupons now code o.total_amount).is_valid = false
      · rw [if_pos hv]
        exact h
      · rw [if_neg hv]
        simp only [Option.getD_some]
        apply nonneg_increment
        by_cases hold : optStrTruthy o.coupon_id = true
        · rw [if_pos hold]
          exact nonneg_decrement _ _ h
        · rw [if_neg hold]
          exact h

theorem nonneg_step (s : SysState) (op : EngineOp)
    (h : ∀ x ∈ s.coupons, 0 ≤ x.used_count) :
    ∀ x ∈ (stepOp s op).coupons, 0 ≤ x.used_count := by
  cases op with
  | createOrder now newOid user dets cc =>
      unfold stepOp create_order
      dsimp only
      repeat' split
      all_goals first
        | (apply nonneg_increment; exact h)
        | exact h
  | applyCoupon now oid code => exact nonneg_apply_getD s now oid code h
  | removeCoupon oid =>
      unfold stepOp remove_coupon_from_order
      dsimp only
      cases ho : get_order_by_id s oid with
      | none => exact h
      | some o =>
          dsimp only
          split
          · exact nonneg_decrement _ _ h
          · exact h
  | deleteOrder oid =>
      unfold stepOp delete_order
      dsimp only
      cases ho : get_order_by_id s oid with
      | none => exact h
      | some o =>
          dsimp only
          split
          · exact nonneg_decrement _ _ h
          · exact h
  | incUsage cid => exact nonneg_increment _ _ h
  | decUsage cid => exact nonneg_decrement _ _ h
  | updateCoupon cid u =>
      unfold stepOp update_coupon
      dsimp only
      cases hf : get_coupon_by_id s.coupons cid with
      | none => exact h
      | some c =>
          dsimp only
          intro x hx
          rcases mem_updateFirst _ _ _ _ hx with hm | ⟨y, hy, rfl⟩
          · exact h x hm
          · have hy0 := h y (List.mem_of_find?_eq_some hy)
            show 0 ≤ (applyCouponUpdate u y).used_count
            exact hy0
  | addDetail oid d =>
      rw [show (stepOp s (.addDetail oid d)).coupons = s.coupons from
        coupons_add_detail s oid d]
      exact h
  | updateDetail did u =>
      rw [show (stepOp s (.updateDetail did u)).coupons = s.coupons from
        coupons_update_detail s did u]
      exact h
  | deleteDetail did =>
      rw [show (stepOp s (.deleteDetail did)).coupons = s.coupons from
        coupons_delete_detail s did]
      exact h

theorem nonneg_runOps (ops : List EngineOp) :
    ∀ s : SysState, (∀ x ∈ s.coupons, 0 ≤ x.used_count) →
      ∀ x ∈ (runOps s ops).coupons, 0 ≤ x.used_count := by
  induction ops with
  | nil => intro s h; exact h
  | cons op rest ih =>
      intro s h
      unfold runOps
      exact ih _ (nonneg_step s op h)

theorem validate_success_not_exhausted (db : List Coupon) (now amount : Int)
    (code : String) (c : Coupon) (hc : get_coupon_by_code db code = some c)
    (hvalid : (validate_coupon db now code amount).is_valid = true) :
    usageExhausted c = false := by
  unfold validate_coupon at hvalid
  rw [hc] at hvalid
  dsimp only at hvalid
  split_ifs at hvalid with h1 h2 h3 h4 h5
  all_goals first
    | simpa using hvalid
    | exact eq_false_of_ne_true h4

theorem within_decrement (db : List Coupon) (k : String)
    (h : ∀ x ∈ db, UsageWithinLimit x) :
    ∀ x ∈ decrement_usage_count db k, UsageWithinLimit x := by
  unfold decrement_usage_count
  cases hf : get_coupon_by_id db k with
  | none => exact h
  | some c =>
      dsimp only
      by_cases hcnt : c.used_count > 0
      · rw [if_pos hcnt]
        intro x hx
        rcases mem_updateFirst _ _ _ _ hx with hm | ⟨y, hy, rfl⟩
        · exact h x hm
        · intro l hl hlpos
          have hyw := h y (List.mem_of_find?_eq_some hy) l hl hlpos
          show y.used_count - 1 ≤ l
          omega
      · rw [if_neg hcnt]
        exact h

theorem within_increment_validated (db : List Coupon) (k : String)
    (climit : Option Int) (ccount : Int)
    (h : ∀ x ∈ db, UsageWithinLimit x)
    (hfound : ∀ c', get_coupon_by_id db k = some c' →
      c'.usage_limit = climit ∧ c'.used_count ≤ ccount)
    (hok : ∀ l, climit = some l → 0 < l → ccount < l) :
    ∀ x ∈ increment_usage_count db k, UsageWithinLimit x := by
  unfold increment_usage_count
  cases hf : get_coupon_by_id db k with
  | none => exact h
  | some c' =>
      dsimp only
      intro x hx
      rcases mem_updateFirst _ _ _ _ hx with hm | ⟨y, hy, rfl⟩
      · exact h x hm
      · have hyc : y = c' := by
          unfold get_coupon_by_id at hf
          rw [hf] at hy
          exact (Option.some_injective _ hy).symm
        obtain ⟨hlim, hcnt⟩ := hfound c' hf
        intro l hl hlpos
        have h1 : y.usage_limit = some l := hl
        show y.used_count + 1 ≤ l
        rw [hyc] at h1 ⊢
        rw [h1] at hlim
        have := hok l hlim.symm hlpos
        omega

/-- C8 (amended): (1) `used_count` never becomes negative under any
sequence of the listed engine operations; (2) a coupon whose `used_count`
has reached its (positive) `usage_limit` fails validation; (3) a
*successful coupon application* preserves `used_count ≤ usage_limit` for
every coupon (the applied one included), given pairwise-distinct coupon
ids.  What the counterexample removes from the original claim: bare usage
increments and limit-lowering coupon updates can still push `used_count`
past `usage_limit`. -/
theorem claim_C8_amended :
    (∀ (s0 : SysState) (ops : List EngineOp),
      (∀ x ∈ s0.coupons, 0 ≤ x.used_count) →
      ∀ x ∈ (runOps s0 ops).coupons, 0 ≤ x.used_count) ∧
    (∀ (db : List Coupon) (now amount : Int) (code : String) (c : Coupon)
        (l : Int), get_coupon_by_code db code = some c →
      c.usage_limit = some l → 0 < l → l ≤ c.used_count →
      (validate_coupon db now code amount).is_valid = false) ∧
    (∀ (s : SysState) (now : Int) (oid code : String) (s1 : SysState),
      apply_coupon_to_order s now oid code = some s1 →
      (s.coupons.map (fun x => x.coupon_id)).Nodup →
      (∀ x ∈ s.coupons, UsageWithinLimit x) →
      ∀ x ∈ s1.coupons, UsageWithinLimit x) := by
  refine ⟨?_, ?_, ?_⟩
  · intro s0 ops h
    exact nonneg_runOps ops s0 h
  · intro db now amount code c l hc hl hlpos hle
    cases hv : (validate_coupon db now code amount).is_valid
    · rfl
    · exfalso
      have hex := validate_success_not_exhausted db now amount code c hc hv
      unfold usageExhausted at hex
      rw [hl] at hex
      dsimp only at hex
      rw [decide_eq_false_iff_not] at hex
      exact hex ⟨by omega, by omega⟩
  · intro s now oid code s1 happly hnd hwin
    unfold apply_coupon_to_order at happly
    cases ho : get_order_by_id s oid with
    | none =>
        rw [ho] at happly
        cases happly
    | some o =>
        rw [ho] at happly
        dsimp only at happly
        by_cases hv :
            (validate_coupon s.coupons now code o.total_amount).is_valid
              = false
        · rw [if_pos hv] at happly
          cases happly
        · rw [if_neg hv] at happly
          have hvalid :
              (validate_coupon s.coupons now code o.total_amount).is_valid
                = true := by
            cases hvv : (validate_coupon s.coupons now code
                o.total_amount).is_valid
            · exact absurd hvv hv
            · rfl
          cases hcf : get_coupon_by_code s.coupons code with
          | none =>
              exfalso
              unfold validate_coupon at hvalid
              rw [hcf] at hvalid
              simpa using hvalid
          | some c =>
              have hsucc := validate_coupon_success s.coupons now code
                o.total_amount c hcf hvalid
              rw [hsucc] at happly
              dsimp only at happly
              injection happly with hs1
              have hcoup : s1.coupons = increment_usage_count
                  (if optStrTruthy o.coupon_id = true then
                    decrement_usage_count s.coupons (o.coupon_id.getD "")
                  else s.coupons) c.coupon_id := by
                rw [← hs1]
                rfl
              rw [hcoup]
              have hgetc : get_coupon_by_id s.coupons c.coupon_id = some c :=
                get_coupon_by_id_of_mem s.coupons c
                  (List.mem_of_find?_eq_some hcf) hnd
              have hex := validate_success_not_exhausted s.coupons now
                o.total_amount code c hcf hvalid
              apply within_increment_validated _ _ c.usage_limit c.used_count
              · by_cases hold : optStrTruthy o.coupon_id = true
                · rw [if_pos hold]
                  exact within_decrement _ _ hwin
                · rw [if_neg hold]
                  exact hwin
              · intro c' hc'
                by_cases hold : optStrTruthy o.coupon_id = true
                · rw [if_pos hold] at hc'
                  cases hoc : o.coupon_id with
                  | none =>
                      rw [hoc] at hold
                      simp [optStrTruthy] at hold
                  | some old =>
                      rw [hoc] at hc'
                      simp only [Option.getD_some] at hc'
                      by_cases heq : old = c.coupon_id
                      · rw [heq] at hc'
                        rw [get_coupon_by_id_decrement, hgetc] at hc'
                        simp only [Option.map_some'] at hc'
                        injection hc' with he
                        by_cases hcnt : c.used_count > 0
                        · rw [if_pos hcnt] at he
                          rw [← he]
                          refine ⟨rfl, ?_⟩
                          show c.used_count - 1 ≤ c.used_count
                          omega
                        · rw [if_neg hcnt] at he
                          rw [← he]
                          exact ⟨rfl, le_refl _⟩
                      · rw [get_coupon_by_id_decrement_ne s.coupons old
                          c.coupon_id heq, hgetc] at hc'
                        injection hc' with he
                        rw [← he]
                        exact ⟨rfl, le_refl _⟩
                · rw [if_neg hold] at hc'
                  rw [hgetc] at hc'
                  injection hc' with he
                  rw [← he]
                  exact ⟨rfl, le_refl _⟩
              · intro l hl hlpos
                unfold usageExhausted at hex
                rw [hl] at hex
                dsimp only at hex
                rw [decide_eq_false_iff_not] at hex
                by_contra hcon
                exact hex ⟨by omega, by omega⟩

/-- A coupon at its usage limit. -/
def couponAtLimit : Coupon :=
  { coupon_id := "c4", code := "AL", name := "al", discount_type := "fixed"
    discount_value := 100, min_order_amount := none
    max_discount_amount := none, usage_limit := some 2, used_count := 2
    is_active := true, start_at := none, end_at := none }

theorem claim_C8_witness :
    (∀ x ∈ (runOps ⟨[couponNL], [], []⟩ [.incUsage "c3"]).coupons,
      0 ≤ x.used_count) ∧
    (validate_coupon [couponAtLimit] 0 "AL" 100).is_valid = false ∧
    (∀ x ∈ stateW1.coupons, UsageWithinLimit x) := by
  refine ⟨?_, ?_, ?_⟩
  · exact claim_C8_amended.1 ⟨[couponNL], [], []⟩ [.incUsage "c3"]
      (by intro x hx; simp at hx; rw [hx]; decide)
  · exact claim_C8_amended.2.1 [couponAtLimit] 0 100 "AL" couponAtLimit 2
      (by decide) rfl (by decide) (by decide)
  · exact claim_C8_amended.2.2 stateW 0 "o1" "B" stateW1 (by decide)
      (by decide)
      (by intro x hx; simp [stateW] at hx; rw [hx]; intro l hl; simp [couponW] at hl)

theorem claim_C4_witness :
    check_time_conflict [⟨"a1", "sty", "confirmed", 600, 660⟩] "sty" 630 690
      (some "a2") = true := by
  have h := claim_C4.1 [⟨"a1", "sty", "confirmed", 600, 660⟩] "sty" 630 690
    (some "a2") (by decide)
  refine h.mpr ⟨⟨"a1", "sty", "confirmed", 600, 660⟩, (by decide), rfl,
    Or.inl rfl, ?_, (by decide), (by decide)⟩
  rintro e he
  injection he with h2
  rw [← h2]
  decide

theorem claim_C6_amended_witness :
    get_next_open_time [⟨1, some 540, some 1020, false⟩] [] 0 = some 540 := by
  have h := (claim_C6_amended [⟨1, some 540, some 1020, false⟩] [] 0).1 540
  refine h.mpr ⟨0, (by decide), ?_, fun j hj => absurd hj (Nat.not_lt_zero j)⟩
  refine ⟨⟨1, some 540, some 1020, false⟩, (by decide), rfl, 540, rfl,
    (by decide), ?_, (by decide)⟩
  rintro ⟨cl, hcl, -⟩
  cases hcl

end ReservationSystem
